import Mathlib

/- Batteries marks the `Rat` arithmetic operations `@[irreducible]`; the
concrete test-vector theorems below evaluate whole pipeline runs with
`decide`, which needs them to unfold. -/
unseal Rat.add Rat.sub Rat.mul Rat.inv Rat.ofScientific

/-!
Verification of the child-nutrition ETL cleaning pipeline.

This file gives a shallow embedding of the repository's data-cleaning core:
  * `src/src/data_cleaning.py` — `remove_duplicates`, `remove_extreme_values`,
    `remove_missing_critical_data`, `fix_data_types` (with its inner
    `excel_to_datetime`),
  * `src/src/derived_fields.py` — `create_derived_fields`,
  * `src/main.py` / `src/run_pipeline_simple.py` — the orchestrator
    (`runPipeline` below).

A pandas `DataFrame` is embedded as a list of column names together with a
list of rows, each row being a list of cells aligned positionally with the
column list.  A cell is either missing (`null`, standing for NaN/NaT/None —
pandas treats all of these as missing), a rational number (pandas numeric
values; float NaN is folded into `null` since every operation the pipeline
performs treats NaN as missing), a string, or a datetime.  Datetimes are
represented as rational numbers of days since 1900-01-01 (Excel's nominal
origin; pandas timestamps have nanosecond resolution, hence the rational
scale).
-/

inductive Cell where
  | null : Cell
  | num : ℚ → Cell
  | str : String → Cell
  | date : ℚ → Cell
deriving DecidableEq, Repr

def Cell.isNull : Cell → Bool
  | .null => true
  | _ => false

def Cell.isNum : Cell → Bool
  | .num _ => true
  | _ => false

def Cell.isDate : Cell → Bool
  | .date _ => true
  | _ => false

structure DF where
  cols : List String
  rows : List (List Cell)
deriving DecidableEq, Repr

/-- Pandas guarantees that every row has exactly one cell per column; the
embedding carries this as an explicit well-formedness predicate. -/
def DF.wf (df : DF) : Bool :=
  df.rows.all (fun r => r.length == df.cols.length)

/-- `df.empty` in pandas: true when either axis has length zero. -/
def DF.isEmptyDF (df : DF) : Bool :=
  df.rows.isEmpty || df.cols.isEmpty

/-- Column access `df[c]` for one row: cell at the column's position. -/
def getCell (cols : List String) (r : List Cell) (c : String) : Cell :=
  match cols.findIdx? (fun x => x == c) with
  | some i => r.getD i Cell.null
  | none => Cell.null

/-- Column assignment `df[c] = df[c].map f`: update the cell at the column's
position in every row. -/
def updateCol (cols : List String) (c : String) (f : Cell → Cell)
    (rows : List (List Cell)) : List (List Cell) :=
  match cols.findIdx? (fun x => x == c) with
  | some i => rows.map (fun r => r.set i (f (r.getD i Cell.null)))
  | none => rows

/-- Pandas column dtypes, as far as the pipeline inspects them: a column is
`numeric` (int64/float64) when every cell is a number or missing, `datetime`
(datetime64) when it is not numeric and every cell is a datetime or missing,
and `obj` (object) otherwise.  An all-missing column reads back from pandas
as float64, hence `numeric`. -/
inductive Dtype where
  | numeric : Dtype
  | datetime : Dtype
  | obj : Dtype
deriving DecidableEq, Repr

def colDtype (cols : List String) (rows : List (List Cell)) (c : String) : Dtype :=
  let cells := rows.map (fun r => getCell cols r c)
  if cells.all (fun x => x.isNum || x.isNull) then Dtype.numeric
  else if cells.all (fun x => x.isDate || x.isNull) then Dtype.datetime
  else Dtype.obj

/-! ### Calendar arithmetic

Standard civil-calendar conversions (proleptic Gregorian), used to interpret
day counts as `(year, month, day)` triples and to parse ISO date strings.
`daysFromCivil` returns days since 1970-01-01; `civilFromDays` is its
inverse.  Both work through the usual era/year-of-era decomposition with the
internal epoch 0000-03-01, which keeps all intermediate quantities
non-negative on the dates this development touches (years 1583–9999). -/

def daysFromCivil (y m d : ℕ) : ℤ :=
  let yy : ℕ := if m ≤ 2 then y - 1 else y
  let era : ℕ := yy / 400
  let yoe : ℕ := yy % 400
  let mp : ℕ := if 2 < m then m - 3 else m + 9
  let doy : ℕ := (153 * mp + 2) / 5 + d - 1
  let doe : ℕ := yoe * 365 + yoe / 4 - yoe / 100 + doy
  (era * 146097 + doe : ℤ) - 719468

def civilFromDays (z : ℤ) : ℤ × ℕ × ℕ :=
  let a : ℕ := (z + 719468).toNat
  let era : ℕ := a / 146097
  let doe : ℕ := a % 146097
  let yoe : ℕ := (doe - doe / 1460 + doe / 36524 - doe / 146096) / 365
  let y : ℕ := yoe + era * 400
  let doy : ℕ := doe - (365 * yoe + yoe / 4 - yoe / 100)
  let mp : ℕ := (5 * doy + 2) / 153
  let d : ℕ := doy - (153 * mp + 2) / 5 + 1
  let m : ℕ := if mp < 10 then mp + 3 else mp - 9
  ((if m ≤ 2 then y + 1 else y : ℕ), m, d)

/-- Days from 1970-01-01 to 1900-01-01 (the `Cell.date` origin). -/
def days1900 : ℤ := daysFromCivil 1900 1 1

/-- Read a `Cell.date` day count (days since 1900-01-01) as a calendar date. -/
def civil1900 (t : ℤ) : ℤ × ℕ × ℕ := civilFromDays (t + days1900)

def isLeapYear (y : ℕ) : Bool :=
  y % 4 == 0 && (y % 100 != 0 || y % 400 == 0)

def daysInMonth (y m : ℕ) : ℕ :=
  if m == 2 then (if isLeapYear y then 29 else 28)
  else if m == 4 || m == 6 || m == 9 || m == 11 then 30
  else 31

/-! ### Cell-level coercions

These model the pandas conversions the pipeline applies:
`pd.to_numeric(·, errors="coerce")`, `pd.to_datetime(·, errors="coerce")`
and `.astype(str)`. -/

/-- The whitespace characters Python's `str.strip()` removes. -/
def isStripChar (c : Char) : Bool :=
  c == ' ' || c == '\t' || c == '\n' || c == '\r'
    || c.toNat == 11 || c.toNat == 12

/-- Python `str.strip()` over the character list of a string. -/
def trimChars (l : List Char) : List Char :=
  ((l.dropWhile isStripChar).reverse.dropWhile isStripChar).reverse

/-- Python `str.strip()`. -/
def strStrip (s : String) : String := ⟨trimChars s.data⟩

/-- Python `str.split(sep)` over a character list (splitting on a single
character, which is all the pipeline needs). -/
def splitChar (sep : Char) : List Char → List (List Char)
  | [] => [[]]
  | c :: cs =>
    match splitChar sep cs with
    | [] => if c == sep then [[], []] else [[c]]
    | h :: t => if c == sep then [] :: h :: t else (c :: h) :: t

def digitVal? (c : Char) : Option ℕ :=
  if '0' ≤ c && c ≤ '9' then some (c.toNat - 48) else none

def natFromCharsAux : ℕ → List Char → Option ℕ
  | acc, [] => some acc
  | acc, c :: cs =>
    match digitVal? c with
    | some v => natFromCharsAux (acc * 10 + v) cs
    | none => none

/-- Parse a non-empty all-digit character list as a natural number. -/
def natFromChars (l : List Char) : Option ℕ :=
  match l with
  | [] => none
  | _ => natFromCharsAux 0 l

/-- Parse a decimal numeral with optional sign and fraction part, after
stripping surrounding whitespace (the subset of Python float syntax the
data uses; scientific notation is outside the modelled domain, and the
textual NaN forms parse to float NaN, which the embedding folds into
missing). -/
def parseNum (s : String) : Option ℚ :=
  let t := trimChars s.data
  let (sgn, body) :=
    match t with
    | '-' :: rest => ((-1 : ℚ), rest)
    | '+' :: rest => ((1 : ℚ), rest)
    | _ => ((1 : ℚ), t)
  match splitChar '.' body with
  | [ip] =>
    match natFromChars ip with
    | some n => some (sgn * n)
    | none => none
  | [ip, fp] =>
    if ip.isEmpty && fp.isEmpty then none
    else
      let ipn := if ip.isEmpty then some 0 else natFromChars ip
      let fpn := if fp.isEmpty then some 0 else natFromChars fp
      match ipn, fpn with
      | some n, some f => some (sgn * ((n : ℚ) + (f : ℚ) / (10 : ℚ) ^ fp.length))
      | _, _ => none
  | _ => none

/-- Parse an ISO `YYYY-MM-DD` date string into days since 1900-01-01 (the
date-string format the data uses; pandas accepts more formats, all of which
are outside the modelled domain).  Calendar-invalid components fail. -/
def parseDate (s : String) : Option ℚ :=
  match splitChar '-' (trimChars s.data) with
  | [ys, ms, ds] =>
    match natFromChars ys, natFromChars ms, natFromChars ds with
    | some y, some m, some d =>
      if 1 ≤ m && m ≤ 12 && 1 ≤ d && d ≤ daysInMonth y m then
        some ((daysFromCivil y m d - days1900 : ℤ) : ℚ)
      else none
    | _, _, _ => none
  | _ => none

/-- Nanoseconds per day: pandas numeric↔datetime casts go through an
int64 nanosecond count with origin 1970-01-01. -/
def nsPerDay : ℚ := 86400000000000

/-- Days from 1900-01-01 to 1970-01-01. -/
def epochShift : ℚ := 25567

/-- `pd.to_numeric(x, errors="coerce")` on one cell. -/
def cellToNumeric : Cell → Cell
  | .null => .null
  | .num q => .num q
  | .str s =>
    match parseNum s with
    | some q => .num q
    | none => .null
  | .date t => .num ((t - epochShift) * nsPerDay)

/-- `pd.to_datetime(x, errors="coerce")` on one cell (numbers are read as
nanoseconds since 1970-01-01). -/
def cellToDatetime : Cell → Cell
  | .null => .null
  | .date t => .date t
  | .str s =>
    match parseDate s with
    | some t => .date t
    | none => .null
  | .num q => .date (q / nsPerDay + epochShift)

/-- Python float repr, to the extent `.astype(str)` output is observable:
integral floats render with a trailing `.0`. -/
def numRepr (q : ℚ) : String :=
  if q.den = 1 then toString q.num ++ ".0" else toString q

/-- `.astype(str)` on one cell: missing values become the string "nan"
(numpy's NaN repr); timestamps render injectively (the exact pandas
timestamp format is not observable by any modelled operation). -/
def cellToStr : Cell → Cell
  | .null => .str "nan"
  | .num q => .str (numRepr q)
  | .str s => .str s
  | .date t => .str ("ts " ++ toString t)

/-- Truncation toward zero, the semantics of `.astype(int)` from float. -/
def truncQ (q : ℚ) : ℤ :=
  if 0 ≤ q then ⌊q⌋ else ⌈q⌉

/-- The string tokens `remove_missing_critical_data` replaces by NaN
(empty string after `.str.strip()`, plus the literal null tokens). -/
def nullTokens : List String := ["", "nan", "None", "null", "NULL"]

/-- One string cell through the normalisation chain
`.astype(str)` → `.str.strip()` → `.replace(token, nan)` for each token. -/
def normalizeStrCell (x : Cell) : Cell :=
  match cellToStr x with
  | .str s =>
    let s2 := strStrip s
    if nullTokens.contains s2 then .null else .str s2
  | c => c

/-- Errors the cleaning stages raise: `ValueError` carries the list of
missing required columns; `TypeError` models the (never exercised in the
modelled domain) column-conversion failure path. -/
inductive PipelineError where
  | valueError : List String → PipelineError
  | typeError : String → PipelineError
deriving DecidableEq, Repr

/-! ### Stage 1 — Duplicate Resolver (`remove_duplicates`, data_cleaning.py 16–122) -/

/-- The five duplicate-key columns, in source order. -/
def dedupKeyCols : List String :=
  ["BeneficiaryId", "DatapointName", "Answer", "Capture Date", "Site"]

/-- The composite duplicate key of one (already coerced) row. -/
def dedupKey (cols : List String) (r : List Cell) :
    Cell × Cell × Cell × Cell × Cell :=
  (getCell cols r "BeneficiaryId", getCell cols r "DatapointName",
   getCell cols r "Answer", getCell cols r "Capture Date",
   getCell cols r "Site")

/-- `drop_duplicates(subset, keep="first")`: keep each row whose key has not
been seen on an earlier row.  (Pandas treats NaN keys as equal to each
other, as `Cell.null = Cell.null` does here.) -/
def dropDuplicates {κ : Type} [DecidableEq κ] (key : List Cell → κ)
    (seen : List κ) : List (List Cell) → List (List Cell)
  | [] => []
  | r :: rs =>
    if key r ∈ seen then dropDuplicates key seen rs
    else r :: dropDuplicates key (key r :: seen) rs

/-- The type coercions `remove_duplicates` applies before comparing keys
(data_cleaning.py 69–88): `BeneficiaryId` and `Answer` via
`pd.to_numeric(errors="coerce")`, `Capture Date` via
`pd.to_datetime(errors="coerce")` unless the column is already datetime64,
`DatapointName` and `Site` via `.astype(str)`. -/
def dedupCoerce (cols : List String) (rows : List (List Cell)) :
    List (List Cell) :=
  let r1 := updateCol cols "BeneficiaryId" cellToNumeric rows
  let r2 := updateCol cols "Answer" cellToNumeric r1
  let r3 :=
    if colDtype cols r2 "Capture Date" ≠ Dtype.datetime then
      updateCol cols "Capture Date" cellToDatetime r2
    else r2
  let r4 := updateCol cols "DatapointName" cellToStr r3
  updateCol cols "Site" cellToStr r4

def remove_duplicates (df : DF) : Except PipelineError DF :=
  if df.isEmptyDF then .ok df
  else
    let missing := dedupKeyCols.filter (fun c => ¬ df.cols.contains c)
    if ¬ missing.isEmpty then .error (.valueError missing)
    else
      let processed := dedupCoerce df.cols df.rows
      .ok ⟨df.cols, dropDuplicates (dedupKey df.cols) [] processed⟩

/-! ### Stage 2 — Range Validator (`remove_extreme_values`, data_cleaning.py 125–309) -/

/-- `df["Answer"] < b` on one cell: NaN/missing compares false. -/
def cellLt (x : Cell) (b : ℚ) : Bool :=
  match x with
  | .num q => decide (q < b)
  | _ => false

/-- `df["Answer"] > b` on one cell: NaN/missing compares false. -/
def cellGt (x : Cell) (b : ℚ) : Bool :=
  match x with
  | .num q => decide (b < q)
  | _ => false

/-- `.notna()` on one cell. -/
def cellNotNa (x : Cell) : Bool := !x.isNull

def heightKind : Cell := .str "Measure: Height"

def bmiKind : Cell := .str "Measure BMI"

/-- The coercions `remove_extreme_values` applies (data_cleaning.py 175–184). -/
def extremeCoerce (cols : List String) (rows : List (List Cell)) :
    List (List Cell) :=
  updateCol cols "DatapointName" cellToStr
    (updateCol cols "Answer" cellToNumeric rows)

def heightMask (cols : List String) (r : List Cell) : Bool :=
  getCell cols r "DatapointName" == heightKind
    && (cellLt (getCell cols r "Answer") 40 || cellGt (getCell cols r "Answer") 200)

def bmiMask (cols : List String) (r : List Cell) : Bool :=
  getCell cols r "DatapointName" == bmiKind
    && (cellLt (getCell cols r "Answer") 5 || cellGt (getCell cols r "Answer") 50)

/-- The `DatapointName` values of the rows that are neither Height nor BMI
and not NA (data_cleaning.py 238–241; membership in the `unique()` of this
collection equals membership in the collection itself). -/
def otherNames (cols : List String) (rows : List (List Cell)) : List Cell :=
  (rows.filter (fun r =>
    !(getCell cols r "DatapointName" == heightKind
        || getCell cols r "DatapointName" == bmiKind)
      && cellNotNa (getCell cols r "DatapointName"))).map
    (fun r => getCell cols r "DatapointName")

/-- The general-validation mask for other measurement kinds
(data_cleaning.py 243–254); the whole block only runs when such rows
exist. -/
def otherMask (cols : List String) (rows : List (List Cell)) (r : List Cell) : Bool :=
  if (otherNames cols rows).isEmpty then false
  else
    (otherNames cols rows).contains (getCell cols r "DatapointName")
      && (cellLt (getCell cols r "Answer") 0 || cellGt (getCell cols r "Answer") 1000)

def remove_extreme_values (df : DF) : Except PipelineError DF :=
  if df.isEmptyDF then .ok df
  else
    let missing := ["DatapointName", "Answer"].filter (fun c => ¬ df.cols.contains c)
    if ¬ missing.isEmpty then .error (.valueError missing)
    else
      let processed := extremeCoerce df.cols df.rows
      let keep := fun r =>
        !heightMask df.cols r && !bmiMask df.cols r && !otherMask df.cols processed r
      .ok ⟨df.cols, processed.filter keep⟩

/-! ### Stage 3 — Completeness Filter (`remove_missing_critical_data`, data_cleaning.py 312–503) -/

def criticalCols : List String :=
  ["BeneficiaryId", "Answer", "Capture Date", "DatapointName"]

/-- The coercions of data_cleaning.py 376–392 followed by the
null-representation normalisation loop of lines 398–417.  The loop visits
the required columns in order; `DatapointName` always gets the string
normalisation, the other three only when their column dtype is object
(which the preceding coercions have just made impossible — the branch is
kept for fidelity). -/
def criticalNormalize (cols : List String) (rows : List (List Cell)) :
    List (List Cell) :=
  let r1 := updateCol cols "BeneficiaryId" cellToNumeric rows
  let r2 := updateCol cols "Answer" cellToNumeric r1
  let r3 :=
    if colDtype cols r2 "Capture Date" ≠ Dtype.datetime then
      updateCol cols "Capture Date" cellToDatetime r2
    else r2
  let r4 := updateCol cols "DatapointName" cellToStr r3
  let r5 :=
    if colDtype cols r4 "BeneficiaryId" = Dtype.obj then
      updateCol cols "BeneficiaryId" normalizeStrCell r4
    else r4
  let r6 :=
    if colDtype cols r5 "Answer" = Dtype.obj then
      updateCol cols "Answer" normalizeStrCell r5
    else r5
  let r7 :=
    if colDtype cols r6 "Capture Date" = Dtype.obj then
      updateCol cols "Capture Date" normalizeStrCell r6
    else r6
  updateCol cols "DatapointName" normalizeStrCell r7

def remove_missing_critical_data (df : DF) : Except PipelineError DF :=
  if df.isEmptyDF then .ok df
  else
    let missing := criticalCols.filter (fun c => ¬ df.cols.contains c)
    if ¬ missing.isEmpty then .error (.valueError missing)
    else
      let processed := criticalNormalize df.cols df.rows
      let keep := fun r =>
        !(getCell df.cols r "BeneficiaryId").isNull
          && !(getCell df.cols r "Answer").isNull
          && !(getCell df.cols r "Capture Date").isNull
          && !(getCell df.cols r "DatapointName").isNull
      .ok ⟨df.cols, processed.filter keep⟩

/-! ### Stage 4 — Type Normalizer (`fix_data_types`, data_cleaning.py 506–688) -/

/-- The inner `excel_to_datetime` (data_cleaning.py 579–587), as an offset
in days from 1900-01-01: serials above 59 are first shifted by −2, and the
returned timestamp is `Timestamp("1900-01-01") + Timedelta(days=serial-2)`,
i.e. another −2 applies to every serial. -/
def excelSerialToDays (serial : ℚ) : ℚ :=
  (if 59 < serial then serial - 2 else serial) - 2

/-- `excel_to_datetime` lifted to a cell (NaN maps to NaT). -/
def excelCell : Cell → Cell
  | .null => .null
  | .num q => .date (excelSerialToDays q)
  | c => c

/-- Minimum of the numeric values among a list of cells (`Series.min()`
skips missing values). -/
def cellsMinQ (l : List Cell) : Option ℚ :=
  (l.filterMap (fun x => match x with | .num q => some q | _ => none)).min?

/-- `Series.min() > 1000` against an `Option` minimum. -/
def minAbove1000 (l : List Cell) : Bool :=
  match cellsMinQ l with
  | some q => decide (1000 < q)
  | none => false

/-- Date-column conversion of data_cleaning.py 566–600: sample the first
ten non-null values; if the column is numeric (int64/float64) with sample
minimum above 1000, treat it as Excel serials, otherwise apply the regular
`pd.to_datetime(errors="coerce")`; an all-null column is left alone. -/
def convertDateColumn (df : DF) (c : String) : DF :=
  let cells := df.rows.map (fun r => getCell df.cols r c)
  let sample := (cells.filter (fun x => !x.isNull)).take 10
  if sample.isEmpty then df
  else if colDtype df.cols df.rows c = Dtype.numeric && minAbove1000 sample then
    ⟨df.cols, updateCol df.cols c excelCell df.rows⟩
  else
    ⟨df.cols, updateCol df.cols c cellToDatetime df.rows⟩

/-- `pd.to_numeric(col, errors="coerce").astype("Int64")`
(data_cleaning.py 616): the nullable-integer cast raises when a coerced
value is fractional, in which case the whole assignment is skipped (the
exception is caught and only logged) and the column is left unchanged. -/
def convertInt64Column (df : DF) (c : String) : DF :=
  let coerced := updateCol df.cols c cellToNumeric df.rows
  let ok := (coerced.map (fun r => getCell df.cols r c)).all
    (fun x => match x with
      | .num q => q.den == 1
      | .null => true
      | _ => false)
  if ok then ⟨df.cols, coerced⟩ else df

/-- Binary-field conversion of data_cleaning.py 636–639:
`pd.to_numeric(errors="coerce")`, then `fillna(0)`, then `astype(int)`
(truncation toward zero; no clamping to 0/1 is performed). -/
def binaryCell (x : Cell) : Cell :=
  match cellToNumeric x with
  | .num q => .num ((truncQ q : ℤ) : ℚ)
  | _ => .num 0

/-- Numeric conversion for a whole column when present. -/
def convertNumericColumn (df : DF) (c : String) : DF :=
  ⟨df.cols, updateCol df.cols c cellToNumeric df.rows⟩

def convertBinaryColumn (df : DF) (c : String) : DF :=
  ⟨df.cols, updateCol df.cols c binaryCell df.rows⟩

/-- Apply a per-column conversion to each listed column that is present in
the table (each conversion site in `fix_data_types` is guarded by
`if col in df_clean.columns`); absent columns are only logged. -/
def applyIfPresent (step : DF → String → DF) (df : DF) (cs : List String) : DF :=
  cs.foldl (fun d c => if d.cols.contains c then step d c else d) df

/-- `fix_data_types` (data_cleaning.py 506–688).  Every conversion is
wrapped in a try/except that logs and continues, and no required-column
check exists, so the stage never raises: it returns `.ok` on every input
(its docstring nevertheless documents a `ValueError` for missing required
columns). -/
def fix_data_types (df : DF) : Except PipelineError DF :=
  if df.isEmptyDF then .ok df
  else .ok
    (applyIfPresent convertNumericColumn
      (applyIfPresent convertBinaryColumn
        (applyIfPresent convertInt64Column
          (applyIfPresent convertNumericColumn
            (applyIfPresent convertDateColumn df ["Capture Date", "CreatedOn"])
            ["Answer", "WHO Index"])
          ["BeneficiaryId"])
        ["Flagged", "MEASURED"])
      ["Score", "z Score", "ENTRY NUMBER"])

/-! ### Orchestrator (`main.py` 90–112, `run_pipeline_simple.py` 32–54)

Both entry points run exactly these four stages in this order —
duplicates, extreme values, data types, missing critical data — and then
persist the result.  Neither invokes `create_derived_fields`. -/

def runPipeline (df : DF) : Except PipelineError DF :=
  (remove_duplicates df).bind fun d1 =>
    (remove_extreme_values d1).bind fun d2 =>
      (fix_data_types d2).bind fun d3 =>
        remove_missing_critical_data d3

/-- The four longitudinal fields the spec says the persisted table
contains. -/
def derivedFieldNames : List String :=
  ["days_since_previous_measurement", "days_since_first_measurement",
   "is_first_measurement", "is_latest_measurement"]

/-! ### Longitudinal Field Deriver (`create_derived_fields`, derived_fields.py 16–56)

The deriver's contract (and the upstream Completeness Filter) guarantee a
table with no missing `BeneficiaryId` or `Capture Date`; the embedding
works on that domain, so a measurement row carries those two fields
directly.  `child` is the `BeneficiaryId` (an integer after
`fix_data_types`), `cdate` the capture date in days since 1900-01-01
(rational, pandas timestamps being sub-day-capable).  The remaining columns
pass through `create_derived_fields` untouched and are not modelled. -/

structure MRow where
  child : ℤ
  cdate : ℚ
deriving DecidableEq, Repr

/-- One output row of `create_derived_fields`: the input fields plus the
four derived columns.  `is_first_measurement` / `is_latest_measurement`
are stored by the source as 0/1 integers via `.astype(int)`; `Bool` stands
for that two-valued range. -/
structure DRow where
  child : ℤ
  cdate : ℚ
  days_since_previous_measurement : Option ℤ
  days_since_first_measurement : ℤ
  is_first_measurement : Bool
  is_latest_measurement : Bool
deriving DecidableEq, Repr

/-- `sort_values(["BeneficiaryId", "Capture Date"])`: lexicographic
comparison on (child, capture date). -/
def mrowLe (a b : MRow) : Bool :=
  a.child < b.child || (a.child == b.child && a.cdate ≤ b.cdate)

/-- Insert into a sorted list, in front of the first element that is not
strictly earlier.  An element from earlier in the frame is inserted before
any tied element from later in the frame, which is exactly the stability
`sort_values` guarantees for its default multi-key sort. -/
def insertSorted {α : Type} (le : α → α → Bool) (x : α) : List α → List α
  | [] => [x]
  | y :: ys => if le x y then x :: y :: ys else y :: insertSorted le x ys

/-- Stable ascending sort (insertion sort; the embedding of
`df.sort_values([...])`, whose observable contract is a stable sort by the
given keys). -/
def sortRows {α : Type} (le : α → α → Bool) : List α → List α
  | [] => []
  | x :: xs => insertSorted le x (sortRows le xs)

/-- The capture dates of one child's group (`groupby("BeneficiaryId")`
groups by equality of the key across the whole frame). -/
def groupDates (l : List MRow) (c : ℤ) : List ℚ :=
  (l.filter (fun r => r.child == c)).map (fun r => r.cdate)

/-- `Timedelta.days`: whole-day floor of a day-difference. -/
def tdDays (q : ℚ) : ℤ := ⌊q⌋

/-- Row-by-row derivation over the sorted frame.  `all` is the whole
sorted frame (the domain of the `groupby` transforms), `seen` the rows
already emitted (in order), `rest` the rows still to process:

* `days_since_previous_measurement` — `groupby(...).diff().dt.days`:
  difference to the nearest earlier row of the same child, missing when
  there is none;
* `days_since_first_measurement` — `transform(lambda x: (x - x.min()).dt.days)`:
  difference to the child's minimum capture date;
* `is_first_measurement` — `groupby(...).cumcount() == 0`: no earlier row
  of the same child;
* `is_latest_measurement` — `transform("max") == capture date`. -/
def deriveRow (all seen : List MRow) (r : MRow) : DRow :=
  let prevs := seen.filter (fun s => s.child == r.child)
  { child := r.child
    cdate := r.cdate
    days_since_previous_measurement :=
      match prevs.getLast? with
      | some p => some (tdDays (r.cdate - p.cdate))
      | none => none
    days_since_first_measurement :=
      match (groupDates all r.child).min? with
      | some m => tdDays (r.cdate - m)
      | none => 0
    is_first_measurement := prevs.isEmpty
    is_latest_measurement :=
      match (groupDates all r.child).max? with
      | some m => r.cdate == m
      | none => false }

def deriveAux (all : List MRow) : List MRow → List MRow → List DRow
  | _, [] => []
  | seen, r :: rest => deriveRow all seen r :: deriveAux all (seen ++ [r]) rest

def create_derived_fields (rs : List MRow) : List DRow :=
  let sortedRows := sortRows mrowLe rs
  deriveAux sortedRows [] sortedRows

/-! ### The spec's serial-date convention (for comparison with the code's)

Modelled from the spec: "Serial-date conversion follows the classic
epoch-of-1899-12-30 convention ... serials > 59 are shifted so that
day 1 ⇒ 1900-01-01 without introducing the phantom Feb 29 1900."
Expressed, like `excelSerialToDays`, as an offset in days from
1900-01-01: serial `s ≤ 59` means 1899-12-31 + s, and serials above 59
are counted from 1899-12-30. -/
def classicSerialToDays (serial : ℤ) : ℤ :=
  if 59 < serial then serial - 2 else serial - 1

instance exceptDecEq {ε α : Type} [DecidableEq ε] [DecidableEq α] :
    DecidableEq (Except ε α) := fun a b =>
  match a, b with
  | .ok x, .ok y =>
    if h : x = y then isTrue (by rw [h])
    else isFalse (by intro hc; cases hc; exact h rfl)
  | .error x, .error y =>
    if h : x = y then isTrue (by rw [h])
    else isFalse (by intro hc; cases hc; exact h rfl)
  | .ok _, .error _ => isFalse (by intro hc; cases hc)
  | .error _, .ok _ => isFalse (by intro hc; cases hc)

/-! ### Concrete tables used as test vectors

`dfScenario` is the spec's own end-to-end scenario (§8): child 42 with a
Height row, its exact duplicate, an out-of-range Height, a second good
Height, and a missing-value row. -/

def colsFull : List String :=
  ["BeneficiaryId", "DatapointName", "Answer", "Capture Date", "Site"]

def dfScenario : DF :=
  ⟨colsFull,
   [[.num 42, .str "Measure: Height", .num 85, .str "2023-01-10", .str "A"],
    [.num 42, .str "Measure: Height", .num 85, .str "2023-01-10", .str "A"],
    [.num 42, .str "Measure: Height", .num 999, .str "2023-02-10", .str "A"],
    [.num 42, .str "Measure: Height", .num 90, .str "2023-03-10", .str "A"],
    [.num 42, .str "Measure: Height", .null, .str "2023-04-10", .str "A"]]⟩

/-- What the orchestrator actually produces on `dfScenario` (2023-01-10 is
day 44934 and 2023-03-10 day 44993 from 1900-01-01). -/
def dfScenarioOut : DF :=
  ⟨colsFull,
   [[.num 42, .str "Measure: Height", .num 85, .date 44934, .str "A"],
    [.num 42, .str "Measure: Height", .num 90, .date 44993, .str "A"]]⟩

/-- A table whose only column is `Site`: every required column of every
cleaning stage is absent. -/
def dfSiteOnly : DF := ⟨["Site"], [[.str "x"]]⟩

/-- A binary `Flagged` column holding 2, a missing value, an unparseable
string and 1. -/
def dfFlagged : DF := ⟨["Flagged"], [[.num 2], [.null], [.str "abc"], [.num 1]]⟩

/-- A numeric `Capture Date` column holding the Excel serial 45000. -/
def dfSerial : DF := ⟨["Capture Date"], [[.num 45000]]⟩

/-- A Height row whose value is missing. -/
def dfHeightNull : DF :=
  ⟨["DatapointName", "Answer"], [[.str "Measure: Height", .null]]⟩

/-- A Height row with an in-range value, a BMI row, and an other-kind row. -/
def dfRangeOk : DF :=
  ⟨["DatapointName", "Answer"],
   [[.str "Measure: Height", .num 85],
    [.str "Measure BMI", .num 17],
    [.str "Measure: Weight", .num 30]]⟩

/-- Critical columns with missingness encoded as tokens and whitespace. -/
def dfTokens : DF :=
  ⟨["BeneficiaryId", "Answer", "Capture Date", "DatapointName"],
   [[.num 42, .num 85, .str "2023-01-10", .str " Measure: Height "],
    [.str "None", .num 85, .str "2023-01-10", .str "Measure: Height"],
    [.num 7, .str "  ", .str "2023-01-10", .str "Measure: Height"],
    [.num 8, .num 3, .str "null", .str "Measure: Height"],
    [.num 9, .num 3, .str "2023-01-10", .str "  "],
    [.num 10, .num 3, .str "2023-01-10", .str "NULL"]]⟩

/-- What the Completeness Filter keeps of `dfTokens`: only the row whose
four critical fields are all present. -/
def dfTokensOut : DF :=
  ⟨["BeneficiaryId", "Answer", "Capture Date", "DatapointName"],
   [[.num 42, .num 85, .date 44934, .str "Measure: Height"]]⟩

/-- A table with an exact duplicate pair for the dedup witness. -/
def dfDup : DF :=
  ⟨colsFull,
   [[.num 1, .str "Measure: Height", .num 85, .str "2023-01-10", .str "A"],
    [.num 1, .str "Measure: Height", .num 85, .str "2023-01-10", .str "A"],
    [.num 1, .str "Measure: Height", .num 88, .str "2023-02-10", .str "A"]]⟩

/-- The Duplicate Resolver's output on `dfDup`. -/
def dfDupOut : DF :=
  ⟨colsFull,
   [[.num 1, .str "Measure: Height", .num 85, .date 44934, .str "A"],
    [.num 1, .str "Measure: Height", .num 88, .date 44965, .str "A"]]⟩

/-- Measurement rows used by the deriver witnesses: child 42 with two tied
latest dates and an earlier first date, plus child 7. -/
def mrowsSample : List MRow :=
  [⟨42, 44993⟩, ⟨42, 44934⟩, ⟨7, 100⟩, ⟨42, 44993⟩]

/-! ### Basic lemmas about the embedding -/

theorem getD_set_self (l : List Cell) (i : ℕ) (v d : Cell) (h : i < l.length) :
    (l.set i v).getD i d = v := by
  rw [List.getD_eq_getElem?_getD, List.getElem?_set_self h]
  rfl

theorem getD_set_ne (l : List Cell) (i j : ℕ) (v d : Cell) (h : i ≠ j) :
    (l.set i v).getD j d = l.getD j d := by
  rw [List.getD_eq_getElem?_getD, List.getElem?_set_ne h, ← List.getD_eq_getElem?_getD]

theorem set_getD_eq (l : List Cell) (i : ℕ) (d : Cell) (h : i < l.length) :
    l.set i (l.getD i d) = l := by
  apply List.ext_getElem?
  intro j
  by_cases hij : i = j
  · subst hij
    rw [List.getElem?_set_self h, List.getD_eq_getElem?_getD, List.getElem?_eq_getElem h]
    rfl
  · exact List.getElem?_set_ne hij

theorem colIdx_lt_length {cols : List String} {c : String} {i : ℕ}
    (h : cols.findIdx? (fun x => x == c) = some i) : i < cols.length := by
  rw [List.findIdx?_eq_some_iff_getElem] at h
  exact h.1

theorem colIdx_get {cols : List String} {c : String} {i : ℕ}
    (h : cols.findIdx? (fun x => x == c) = some i) :
    ∃ hlt : i < cols.length, cols[i] = c := by
  rw [List.findIdx?_eq_some_iff_getElem] at h
  obtain ⟨hlt, hbeq, _⟩ := h
  exact ⟨hlt, by simpa using hbeq⟩

theorem colIdx_of_contains {cols : List String} {c : String}
    (h : cols.contains c = true) :
    ∃ i, cols.findIdx? (fun x => x == c) = some i := by
  refine ⟨cols.findIdx (fun x => x == c), List.findIdx?_eq_some_of_exists ?_⟩
  exact ⟨c, by simpa using h, by simp⟩

theorem colIdx_ne {cols : List String} {c c' : String} {i j : ℕ}
    (hc : cols.findIdx? (fun x => x == c) = some i)
    (hc' : cols.findIdx? (fun x => x == c') = some j)
    (hne : c ≠ c') : i ≠ j := by
  obtain ⟨hi, hie⟩ := colIdx_get hc
  obtain ⟨hj, hje⟩ := colIdx_get hc'
  intro hij
  subst hij
  exact hne (hie.symm.trans hje)

theorem getCell_set_self {cols : List String} {c : String} {i : ℕ}
    (hidx : cols.findIdx? (fun x => x == c) = some i)
    (r : List Cell) (v : Cell) (hlen : cols.length ≤ r.length) :
    getCell cols (r.set i v) c = v := by
  unfold getCell
  rw [hidx]
  exact getD_set_self _ _ _ _ (lt_of_lt_of_le (colIdx_lt_length hidx) hlen)

theorem getCell_set_other {cols : List String} {c c' : String} {i : ℕ}
    (hidx : cols.findIdx? (fun x => x == c) = some i)
    (hne : c ≠ c') (r : List Cell) (v : Cell) :
    getCell cols (r.set i v) c' = getCell cols r c' := by
  unfold getCell
  cases hidx' : cols.findIdx? (fun x => x == c') with
  | none => rfl
  | some j => exact getD_set_ne _ _ _ _ _ (colIdx_ne hidx hidx' hne)

theorem getCell_eq_getD {cols : List String} {c : String} {i : ℕ}
    (hidx : cols.findIdx? (fun x => x == c) = some i) (r : List Cell) :
    getCell cols r c = r.getD i Cell.null := by
  unfold getCell
  rw [hidx]

/-- A row well-formedness predicate for a raw row list. -/
def rowsWf (cols : List String) (rows : List (List Cell)) : Prop :=
  ∀ r ∈ rows, r.length = cols.length

theorem rowsWf_of_wf {df : DF} (h : df.wf = true) : rowsWf df.cols df.rows := by
  intro r hr
  have := List.all_eq_true.mp h r hr
  simpa using this

theorem rowsWf_updateCol {cols : List String} {rows : List (List Cell)}
    (c : String) (f : Cell → Cell) (h : rowsWf cols rows) :
    rowsWf cols (updateCol cols c f rows) := by
  unfold updateCol
  cases hidx : cols.findIdx? (fun x => x == c) with
  | none => exact h
  | some i =>
    intro r hr
    obtain ⟨r0, hr0, rfl⟩ := List.mem_map.mp hr
    rw [List.length_set]
    exact h r0 hr0

theorem rowsWf_filter {cols : List String} {rows : List (List Cell)}
    (p : List Cell → Bool) (h : rowsWf cols rows) :
    rowsWf cols (rows.filter p) := by
  intro r hr
  exact h r (List.mem_filter.mp hr).1

theorem mem_updateCol {cols : List String} {rows : List (List Cell)}
    {c : String} {f : Cell → Cell} {x : List Cell}
    (hx : x ∈ updateCol cols c f rows) :
    (∃ r ∈ rows, ∃ i, cols.findIdx? (fun y => y == c) = some i
        ∧ x = r.set i (f (r.getD i Cell.null)))
    ∨ (cols.findIdx? (fun y => y == c) = none ∧ x ∈ rows) := by
  unfold updateCol at hx
  cases hidx : cols.findIdx? (fun y => y == c) with
  | none =>
    rw [hidx] at hx
    exact Or.inr ⟨rfl, hx⟩
  | some i =>
    rw [hidx] at hx
    obtain ⟨r0, hr0, rfl⟩ := List.mem_map.mp hx
    exact Or.inl ⟨r0, hr0, i, rfl, rfl⟩

/-- Updating a column leaves every other column's cells unchanged
(row by row, in order). -/
theorem getCell_updateCol_other {cols : List String} {rows : List (List Cell)}
    (c c' : String) (f : Cell → Cell) (hne : c ≠ c')
    {x : List Cell} (hx : x ∈ updateCol cols c f rows) :
    ∃ r ∈ rows, getCell cols x c' = getCell cols r c' := by
  rcases mem_updateCol hx with ⟨r, hr, i, hidx, rfl⟩ | ⟨_, hmem⟩
  · exact ⟨r, hr, getCell_set_other hidx hne _ _⟩
  · exact ⟨x, hmem, rfl⟩

/-- The cells of the updated column are exactly the images under `f`. -/
theorem getCell_updateCol_self {cols : List String} {rows : List (List Cell)}
    {c : String} {i : ℕ} (hidx : cols.findIdx? (fun y => y == c) = some i)
    (f : Cell → Cell) (hwf : rowsWf cols rows)
    {x : List Cell} (hx : x ∈ updateCol cols c f rows) :
    ∃ r ∈ rows, getCell cols x c = f (getCell cols r c) := by
  rcases mem_updateCol hx with ⟨r, hr, j, hidx', rfl⟩ | ⟨hnone, _⟩
  · rw [hidx] at hidx'
    cases hidx'
    refine ⟨r, hr, ?_⟩
    rw [getCell_set_self hidx _ _ (le_of_eq (hwf r hr).symm),
      getCell_eq_getD hidx]
  · rw [hidx] at hnone
    cases hnone

/-- If `f` fixes the cell of column `c` on every row, the update is the
identity. -/
theorem updateCol_eq_self {cols : List String} {rows : List (List Cell)}
    {c : String} {f : Cell → Cell} (hwf : rowsWf cols rows)
    (h : ∀ r ∈ rows, f (getCell cols r c) = getCell cols r c) :
    updateCol cols c f rows = rows := by
  unfold updateCol
  cases hidx : cols.findIdx? (fun y => y == c) with
  | none => rfl
  | some i =>
    have hfix : ∀ r ∈ rows, r.set i (f (r.getD i Cell.null)) = id r := by
      intro r hr
      have hc := h r hr
      rw [getCell_eq_getD hidx] at hc
      rw [hc]
      exact set_getD_eq _ _ _
        (lt_of_lt_of_le (colIdx_lt_length hidx) (le_of_eq (hwf r hr).symm))
    exact (List.map_congr_left hfix).trans (List.map_id rows)

/-! ### Shape and idempotence of the cell coercions -/

theorem cellToNumeric_form (x : Cell) :
    ((cellToNumeric x).isNum || (cellToNumeric x).isNull) = true := by
  cases x <;> simp [cellToNumeric, Cell.isNum, Cell.isNull]
  case str s => cases parseNum s <;> simp

theorem cellToNumeric_idem (x : Cell) :
    cellToNumeric (cellToNumeric x) = cellToNumeric x := by
  cases x <;> simp [cellToNumeric]
  case str s => cases parseNum s <;> simp [cellToNumeric]

theorem cellToDatetime_form (x : Cell) :
    ((cellToDatetime x).isDate || (cellToDatetime x).isNull) = true := by
  cases x <;> simp [cellToDatetime, Cell.isDate, Cell.isNull]
  case str s => cases parseDate s <;> simp

theorem cellToDatetime_of_dateForm {x : Cell}
    (h : (x.isDate || x.isNull) = true) : cellToDatetime x = x := by
  cases x <;> simp_all [cellToDatetime, Cell.isDate, Cell.isNull]

theorem cellToNumeric_of_numForm {x : Cell}
    (h : (x.isNum || x.isNull) = true) : cellToNumeric x = x := by
  cases x <;> simp_all [cellToNumeric, Cell.isNum, Cell.isNull]

theorem cellToStr_isStr (x : Cell) : ∃ s, cellToStr x = .str s := by
  cases x <;> simp [cellToStr]

theorem cellToStr_of_str {s : String} : cellToStr (.str s) = .str s := rfl

/-- The string normalisation yields either a missing value or a stripped
string that is none of the null tokens. -/
theorem normalizeStrCell_form (s : String) :
    normalizeStrCell (.str s) = .null
    ∨ ∃ s2, normalizeStrCell (.str s) = .str s2 ∧ nullTokens.contains s2 = false := by
  unfold normalizeStrCell
  rw [cellToStr_of_str]
  by_cases h : nullTokens.contains (strStrip s) = true
  · left
    have hm : strStrip s ∈ nullTokens := by simpa using h
    simp [h, hm]
  · right
    refine ⟨strStrip s, ?_, by simpa using h⟩
    have : strStrip s ∉ nullTokens := by simpa using h
    simp [this]

/-! ### Column dtype facts -/

theorem colDtype_numeric_of {cols : List String} {rows : List (List Cell)} {c : String}
    (h : ∀ r ∈ rows, ((getCell cols r c).isNum || (getCell cols r c).isNull) = true) :
    colDtype cols rows c = Dtype.numeric := by
  unfold colDtype
  have : (rows.map (fun r => getCell cols r c)).all
      (fun x => x.isNum || x.isNull) = true := by
    rw [List.all_eq_true]
    intro x hx
    obtain ⟨r, hr, rfl⟩ := List.mem_map.mp hx
    exact h r hr
  simp [this]

theorem colDtype_not_obj_of_dateForms {cols : List String} {rows : List (List Cell)}
    {c : String}
    (h : ∀ r ∈ rows, ((getCell cols r c).isDate || (getCell cols r c).isNull) = true) :
    colDtype cols rows c ≠ Dtype.obj := by
  unfold colDtype
  have hall : (rows.map (fun r => getCell cols r c)).all
      (fun x => x.isDate || x.isNull) = true := by
    rw [List.all_eq_true]
    intro x hx
    obtain ⟨r, hr, rfl⟩ := List.mem_map.mp hx
    exact h r hr
  by_cases h1 : (rows.map (fun r => getCell cols r c)).all
      (fun x => x.isNum || x.isNull) = true
  · simp [h1]
  · simp [h1, hall]

theorem colDtype_datetime_forms {cols : List String} {rows : List (List Cell)}
    {c : String} (h : colDtype cols rows c = Dtype.datetime) :
    ∀ r ∈ rows, ((getCell cols r c).isDate || (getCell cols r c).isNull) = true := by
  unfold colDtype at h
  by_cases h1 : (rows.map (fun r => getCell cols r c)).all
      (fun x => x.isNum || x.isNull) = true
  · simp [h1] at h
  · by_cases h2 : (rows.map (fun r => getCell cols r c)).all
        (fun x => x.isDate || x.isNull) = true
    · intro r hr
      exact List.all_eq_true.mp h2 _ (List.mem_map.mpr ⟨r, hr, rfl⟩)
    · simp [h1, h2] at h

/-! ### Claim theorems -/

/-- C10: on an empty input table every cleaning stage returns the table
unchanged and raises nothing; in particular the required-column schema
check is skipped, so missing required columns are not reported when there
are zero rows (the column list here is arbitrary, e.g. empty). -/
theorem empty_table_stages_identity (cols : List String) :
    remove_duplicates ⟨cols, []⟩ = .ok ⟨cols, []⟩
    ∧ remove_extreme_values ⟨cols, []⟩ = .ok ⟨cols, []⟩
    ∧ remove_missing_critical_data ⟨cols, []⟩ = .ok ⟨cols, []⟩
    ∧ fix_data_types ⟨cols, []⟩ = .ok ⟨cols, []⟩ := by
  refine ⟨?_, ?_, ?_, ?_⟩ <;>
    simp [remove_duplicates, remove_extreme_values,
      remove_missing_critical_data, fix_data_types, DF.isEmptyDF]

/-- C8: on a non-empty table missing every required column, the Duplicate
Resolver, Range Validator and Completeness Filter abort with an error
naming every missing column, but the Type Normalizer (`fix_data_types`)
performs no required-column check at all and returns the table unchanged —
contradicting both its own docstring ("Raises: ValueError: If required
columns are missing") and the claim. -/
theorem fix_data_types_skips_schema_check :
    fix_data_types dfSiteOnly = .ok dfSiteOnly
    ∧ remove_duplicates dfSiteOnly =
        .error (.valueError ["BeneficiaryId", "DatapointName", "Answer", "Capture Date"])
    ∧ remove_extreme_values dfSiteOnly =
        .error (.valueError ["DatapointName", "Answer"])
    ∧ remove_missing_critical_data dfSiteOnly =
        .error (.valueError ["BeneficiaryId", "Answer", "Capture Date", "DatapointName"]) :=
  ⟨rfl, rfl, rfl, rfl⟩

/-- C9: the Type Normalizer's binary-field conversion
(`to_numeric` → `fillna(0)` → `astype(int)`) sends missing and unparseable
cells to 0, but performs no clamping: the value 2 in the `Flagged` column
survives as 2, which is neither 0 nor 1 — contradicting the docstring's
"converted to binary (0/1)" and the claim. -/
theorem binary_fields_not_clamped :
    fix_data_types dfFlagged =
      .ok ⟨["Flagged"], [[.num 2], [.num 0], [.num 0], [.num 1]]⟩
    ∧ ¬ ((2 : ℚ) = 0 ∨ (2 : ℚ) = 1) :=
  ⟨by decide, by norm_num⟩

/-- C2: the code's serial-date conversion applies the −2 shift twice (once
in the `if serial > 59` branch and once in `Timedelta(days=serial-2)`), so
it does not realise the claimed epoch-of-1899-12-30 convention: serial 1
maps to 1899-12-31 (claim: 1900-01-01), serial 61 to 1900-02-27 (claim:
1900-03-01) and serial 45000 to 2023-03-13 (claim: 2023-03-15);
`classicSerialToDays` is the claim's convention for comparison. -/
theorem excel_serial_double_shift :
    fix_data_types dfSerial = .ok ⟨["Capture Date"], [[.date 44996]]⟩
    ∧ excelSerialToDays 45000 = 44996
    ∧ civil1900 44996 = (2023, 3, 13)
    ∧ classicSerialToDays 45000 = 44998
    ∧ civil1900 44998 = (2023, 3, 15)
    ∧ excelSerialToDays 1 = -1
    ∧ civil1900 (-1) = (1899, 12, 31)
    ∧ classicSerialToDays 1 = 0
    ∧ civil1900 0 = (1900, 1, 1)
    ∧ excelSerialToDays 61 = 57
    ∧ civil1900 57 = (1900, 2, 27)
    ∧ classicSerialToDays 61 = 59
    ∧ civil1900 59 = (1900, 3, 1) := by
  refine ⟨by decide, by norm_num [excelSerialToDays], by decide, by decide, by decide,
    by norm_num [excelSerialToDays], by decide, by decide, by decide,
    by norm_num [excelSerialToDays], by decide, by decide, by decide⟩

/-- C1 (counterexample): on the spec's own end-to-end scenario the
orchestrator succeeds, but its persisted output contains none of the four
longitudinal fields the claim says it contains — `create_derived_fields`
is never invoked by either entry point. -/
theorem pipeline_output_lacks_derived_fields :
    runPipeline dfScenario = .ok dfScenarioOut
    ∧ ∀ n ∈ derivedFieldNames, dfScenarioOut.cols.contains n = false :=
  ⟨by decide, by decide⟩

/-! ### Range Validator lemmas (C3) -/

theorem extremeCoerce_answer_form {cols : List String} {rows : List (List Cell)}
    (hwf : rowsWf cols rows) (hA : cols.contains "Answer" = true) :
    ∀ r ∈ extremeCoerce cols rows,
      ((getCell cols r "Answer").isNum || (getCell cols r "Answer").isNull) = true := by
  intro r hr
  obtain ⟨i, hidx⟩ := colIdx_of_contains hA
  obtain ⟨r1, hr1, he⟩ := getCell_updateCol_other "DatapointName" "Answer"
    cellToStr (by decide) hr
  obtain ⟨r0, _, he0⟩ := getCell_updateCol_self hidx cellToNumeric hwf hr1
  rw [he, he0]
  exact cellToNumeric_form _

theorem extremeCoerce_dn_form {cols : List String} {rows : List (List Cell)}
    (hwf : rowsWf cols rows) (hA : cols.contains "Answer" = true)
    (hDN : cols.contains "DatapointName" = true) :
    ∀ r ∈ extremeCoerce cols rows,
      ∃ s, getCell cols r "DatapointName" = .str s := by
  intro r hr
  obtain ⟨i, hidx⟩ := colIdx_of_contains hDN
  have hwf1 : rowsWf cols (updateCol cols "Answer" cellToNumeric rows) :=
    rowsWf_updateCol _ _ hwf
  obtain ⟨r1, _, he⟩ := getCell_updateCol_self hidx cellToStr hwf1 hr
  rw [he]
  exact cellToStr_isStr _

theorem rowsWf_extremeCoerce {cols : List String} {rows : List (List Cell)}
    (hwf : rowsWf cols rows) : rowsWf cols (extremeCoerce cols rows) :=
  rowsWf_updateCol _ _ (rowsWf_updateCol _ _ hwf)

/-- C3 (amended): every row surviving the Range Validator whose value is a
present number satisfies the per-kind bounds: Height in [40,200], BMI in
[5,50], any other kind in [0,1000].  (Rows whose value is missing pass
through untouched — see the counterexample theorem — which is why the
claim holds only for present numeric values.) -/
theorem range_invariant_on_present_values (df out : DF) (hwf : df.wf = true)
    (h : remove_extreme_values df = .ok out) :
    ∀ r ∈ out.rows, ∀ q : ℚ, getCell out.cols r "Answer" = .num q →
      (getCell out.cols r "DatapointName" = heightKind → 40 ≤ q ∧ q ≤ 200)
      ∧ (getCell out.cols r "DatapointName" = bmiKind → 5 ≤ q ∧ q ≤ 50)
      ∧ (getCell out.cols r "DatapointName" ≠ heightKind →
          getCell out.cols r "DatapointName" ≠ bmiKind → 0 ≤ q ∧ q ≤ 1000) := by
  intro r hr q hq
  unfold remove_extreme_values at h
  by_cases hempty : df.isEmptyDF = true
  · rw [if_pos hempty] at h
    cases h
    have hd : df.rows = [] ∨ df.cols = [] := by
      have h2 := hempty
      unfold DF.isEmptyDF at h2
      simpa using h2
    rcases hd with hrows | hcols
    · rw [hrows] at hr
      cases hr
    · rw [hcols] at hq
      simp [getCell, List.findIdx?] at hq
  · rw [if_neg hempty] at h
    by_cases hmiss : (["DatapointName", "Answer"].filter
        (fun c => ¬ df.cols.contains c)).isEmpty = true
    · rw [if_neg (by simpa using hmiss)] at h
      cases h
      have hcont : "DatapointName" ∈ df.cols ∧ "Answer" ∈ df.cols := by
        have h2 := List.isEmpty_iff.mp hmiss
        rw [List.filter_eq_nil_iff] at h2
        constructor
        · have := h2 "DatapointName" (by simp)
          simpa using this
        · have := h2 "Answer" (by simp)
          simpa using this
      have hDN : df.cols.contains "DatapointName" = true := by
        simpa using hcont.1
      have hA : df.cols.contains "Answer" = true := by
        simpa using hcont.2
      obtain ⟨hrp, hkeep⟩ := List.mem_filter.mp hr
      simp only [Bool.and_eq_true, Bool.not_eq_eq_eq_not, Bool.not_true] at hkeep
      obtain ⟨⟨hhm, hbm⟩, hom⟩ := hkeep
      refine ⟨?_, ?_, ?_⟩
      · intro hdn
        unfold heightMask at hhm
        rw [hdn, hq] at hhm
        simp only [beq_self_eq_true, Bool.true_and, Bool.or_eq_false_iff] at hhm
        unfold cellLt cellGt at hhm
        obtain ⟨h1, h2⟩ := hhm
        exact ⟨le_of_not_lt (by simpa using h1), le_of_not_lt (by simpa using h2)⟩
      · intro hdn
        unfold bmiMask at hbm
        rw [hdn, hq] at hbm
        simp only [beq_self_eq_true, Bool.true_and, Bool.or_eq_false_iff] at hbm
        unfold cellLt cellGt at hbm
        obtain ⟨h1, h2⟩ := hbm
        exact ⟨le_of_not_lt (by simpa using h1), le_of_not_lt (by simpa using h2)⟩
      · intro hh hb
        have hwf2 := rowsWf_of_wf hwf
        obtain ⟨s, hs⟩ := extremeCoerce_dn_form hwf2 hA hDN r hrp
        have hmem : getCell df.cols r "DatapointName" ∈
            otherNames df.cols (extremeCoerce df.cols df.rows) := by
          unfold otherNames
          refine List.mem_map.mpr ⟨r, List.mem_filter.mpr ⟨hrp, ?_⟩, rfl⟩
          simp only [Bool.and_eq_true, Bool.not_eq_eq_eq_not, Bool.not_true,
            Bool.or_eq_false_iff]
          refine ⟨⟨?_, ?_⟩, ?_⟩
          · exact beq_eq_false_iff_ne.mpr hh
          · exact beq_eq_false_iff_ne.mpr hb
          · rw [hs]
            rfl
        unfold otherMask at hom
        rw [if_neg (by
          intro hc
          rw [List.isEmpty_iff.mp hc] at hmem
          cases hmem)] at hom
        rw [Bool.and_eq_false_iff] at hom
        rcases hom with hc | hval
        · exact absurd hmem (by simpa using hc)
        · rw [hq] at hval
          rw [Bool.or_eq_false_iff] at hval
          obtain ⟨h1, h2⟩ := hval
          unfold cellLt at h1
          unfold cellGt at h2
          exact ⟨le_of_not_lt (by simpa using h1), le_of_not_lt (by simpa using h2)⟩
    · rw [if_pos (by simpa using hmiss)] at h
      cases h

/-- C3 (counterexample): a Height row with a missing value survives the
Range Validator unchanged (NaN compares false against both bounds, so the
removal masks never fire), yet its value is not in [40, 200]; the claim as
stated — over every output row — is therefore false. -/
theorem range_validator_passes_null_height :
    remove_extreme_values dfHeightNull = .ok dfHeightNull
    ∧ [Cell.str "Measure: Height", Cell.null] ∈ dfHeightNull.rows
    ∧ getCell dfHeightNull.cols [Cell.str "Measure: Height", Cell.null]
        "DatapointName" = heightKind
    ∧ ¬ ∃ q : ℚ, getCell dfHeightNull.cols
        [Cell.str "Measure: Height", Cell.null] "Answer" = .num q
        ∧ 40 ≤ q ∧ q ≤ 200 := by
  refine ⟨by decide, by decide, by decide, ?_⟩
  rintro ⟨q, hq, _⟩
  have hnull : getCell dfHeightNull.cols
      [Cell.str "Measure: Height", Cell.null] "Answer" = Cell.null := by decide
  rw [hnull] at hq
  cases hq

/-- C3 (witness): the amended range invariant, instantiated on a concrete
table with one in-range row of each kind. -/
theorem range_invariant_witness :
    dfRangeOk.wf = true
    ∧ remove_extreme_values dfRangeOk = .ok dfRangeOk
    ∧ ∀ r ∈ dfRangeOk.rows, ∀ q : ℚ, getCell dfRangeOk.cols r "Answer" = .num q →
      (getCell dfRangeOk.cols r "DatapointName" = heightKind → 40 ≤ q ∧ q ≤ 200)
      ∧ (getCell dfRangeOk.cols r "DatapointName" = bmiKind → 5 ≤ q ∧ q ≤ 50)
      ∧ (getCell dfRangeOk.cols r "DatapointName" ≠ heightKind →
          getCell dfRangeOk.cols r "DatapointName" ≠ bmiKind → 0 ≤ q ∧ q ≤ 1000) :=
  ⟨by decide, by decide,
    range_invariant_on_present_values dfRangeOk dfRangeOk (by decide) (by decide)⟩

/-! ### Completeness Filter lemmas (C4) -/

theorem forms_updateCol_other {cols : List String} {rows : List (List Cell)}
    (c c' : String) (hne : c ≠ c') {P : Cell → Prop}
    (h : ∀ r ∈ rows, P (getCell cols r c')) (f : Cell → Cell) :
    ∀ r ∈ updateCol cols c f rows, P (getCell cols r c') := by
  intro r hr
  obtain ⟨r0, hr0, he⟩ := getCell_updateCol_other c c' f hne hr
  rw [he]
  exact h r0 hr0

theorem forms_updateCol_self {cols : List String} {rows : List (List Cell)}
    {c : String} (hc : cols.contains c = true) (hwf : rowsWf cols rows)
    {P : Cell → Prop} (f : Cell → Cell) (h : ∀ x, P (f x)) :
    ∀ r ∈ updateCol cols c f rows, P (getCell cols r c) := by
  intro r hr
  obtain ⟨i, hidx⟩ := colIdx_of_contains hc
  obtain ⟨r0, hr0, he⟩ := getCell_updateCol_self hidx f hwf hr
  rw [he]
  exact h _

/-- After `criticalNormalize`, the four critical columns hold: numbers or
missing for `BeneficiaryId` and `Answer`, datetimes or missing for
`Capture Date`, and for `DatapointName` either missing or a stripped
string that is none of the null tokens. -/
theorem criticalNormalize_forms {cols : List String} {rows : List (List Cell)}
    (hwf : rowsWf cols rows)
    (hB : cols.contains "BeneficiaryId" = true)
    (hA : cols.contains "Answer" = true)
    (hCD : cols.contains "Capture Date" = true)
    (hDN : cols.contains "DatapointName" = true) :
    ∀ r ∈ criticalNormalize cols rows,
      ((getCell cols r "BeneficiaryId").isNum
        || (getCell cols r "BeneficiaryId").isNull) = true
      ∧ ((getCell cols r "Answer").isNum || (getCell cols r "Answer").isNull) = true
      ∧ ((getCell cols r "Capture Date").isDate
        || (getCell cols r "Capture Date").isNull) = true
      ∧ (getCell cols r "DatapointName" = .null
        ∨ ∃ s, getCell cols r "DatapointName" = .str s
            ∧ nullTokens.contains s = false) := by
  unfold criticalNormalize
  set R1 := updateCol cols "BeneficiaryId" cellToNumeric rows with hR1
  set R2 := updateCol cols "Answer" cellToNumeric R1 with hR2
  set R3 := if colDtype cols R2 "Capture Date" ≠ Dtype.datetime then
      updateCol cols "Capture Date" cellToDatetime R2
    else R2 with hR3
  set R4 := updateCol cols "DatapointName" cellToStr R3 with hR4
  have hwf1 : rowsWf cols R1 := by
    rw [hR1]; exact rowsWf_updateCol _ _ hwf
  have hwf2 : rowsWf cols R2 := by
    rw [hR2]; exact rowsWf_updateCol _ _ hwf1
  have hwf3 : rowsWf cols R3 := by
    rw [hR3]
    split
    · exact rowsWf_updateCol _ _ hwf2
    · exact hwf2
  have hwf4 : rowsWf cols R4 := by
    rw [hR4]; exact rowsWf_updateCol _ _ hwf3
  have hBf1 : ∀ r ∈ R1,
      ((getCell cols r "BeneficiaryId").isNum
        || (getCell cols r "BeneficiaryId").isNull) = true := by
    rw [hR1]
    exact forms_updateCol_self (P := fun x => (x.isNum || x.isNull) = true) hB hwf cellToNumeric cellToNumeric_form
  have hBf2 : ∀ r ∈ R2,
      ((getCell cols r "BeneficiaryId").isNum
        || (getCell cols r "BeneficiaryId").isNull) = true := by
    rw [hR2]
    exact forms_updateCol_other "Answer" "BeneficiaryId" (P := fun x => (x.isNum || x.isNull) = true) (by decide) hBf1 _
  have hAf2 : ∀ r ∈ R2,
      ((getCell cols r "Answer").isNum || (getCell cols r "Answer").isNull) = true := by
    rw [hR2]
    exact forms_updateCol_self (P := fun x => (x.isNum || x.isNull) = true) hA hwf1 cellToNumeric cellToNumeric_form
  have hBf3 : ∀ r ∈ R3,
      ((getCell cols r "BeneficiaryId").isNum
        || (getCell cols r "BeneficiaryId").isNull) = true := by
    rw [hR3]
    split
    · exact forms_updateCol_other "Capture Date" "BeneficiaryId" (P := fun x => (x.isNum || x.isNull) = true) (by decide) hBf2 _
    · exact hBf2
  have hAf3 : ∀ r ∈ R3,
      ((getCell cols r "Answer").isNum || (getCell cols r "Answer").isNull) = true := by
    rw [hR3]
    split
    · exact forms_updateCol_other "Capture Date" "Answer" (P := fun x => (x.isNum || x.isNull) = true) (by decide) hAf2 _
    · exact hAf2
  have hCDf3 : ∀ r ∈ R3,
      ((getCell cols r "Capture Date").isDate
        || (getCell cols r "Capture Date").isNull) = true := by
    rw [hR3]
    split
    · exact forms_updateCol_self (P := fun x => (x.isDate || x.isNull) = true) hCD hwf2 cellToDatetime cellToDatetime_form
    · next hdt => exact colDtype_datetime_forms (not_not.mp hdt)
  have hBf4 : ∀ r ∈ R4,
      ((getCell cols r "BeneficiaryId").isNum
        || (getCell cols r "BeneficiaryId").isNull) = true := by
    rw [hR4]
    exact forms_updateCol_other "DatapointName" "BeneficiaryId" (P := fun x => (x.isNum || x.isNull) = true) (by decide) hBf3 _
  have hAf4 : ∀ r ∈ R4,
      ((getCell cols r "Answer").isNum || (getCell cols r "Answer").isNull) = true := by
    rw [hR4]
    exact forms_updateCol_other "DatapointName" "Answer" (P := fun x => (x.isNum || x.isNull) = true) (by decide) hAf3 _
  have hCDf4 : ∀ r ∈ R4,
      ((getCell cols r "Capture Date").isDate
        || (getCell cols r "Capture Date").isNull) = true := by
    rw [hR4]
    exact forms_updateCol_other "DatapointName" "Capture Date" (P := fun x => (x.isDate || x.isNull) = true) (by decide) hCDf3 _
  have hstr4 : ∀ r ∈ R4, ∃ s, getCell cols r "DatapointName" = .str s := by
    rw [hR4]
    exact forms_updateCol_self (P := fun x => ∃ s, x = Cell.str s) hDN hwf3 cellToStr cellToStr_isStr
  have hB5 : colDtype cols R4 "BeneficiaryId" = Dtype.numeric :=
    colDtype_numeric_of hBf4
  have hA6 : colDtype cols R4 "Answer" = Dtype.numeric :=
    colDtype_numeric_of hAf4
  have hCD7 : colDtype cols R4 "Capture Date" ≠ Dtype.obj :=
    colDtype_not_obj_of_dateForms hCDf4
  have hB5n : colDtype cols R4 "BeneficiaryId" ≠ Dtype.obj := by
    rw [hB5]
    intro hc
    cases hc
  have hA6n : colDtype cols R4 "Answer" ≠ Dtype.obj := by
    rw [hA6]
    intro hc
    cases hc
  intro r hr
  simp only [] at hr
  rw [if_neg hB5n] at hr
  rw [if_neg hA6n] at hr
  rw [if_neg hCD7] at hr
  refine ⟨?_, ?_, ?_, ?_⟩
  · obtain ⟨r0, hr0, he⟩ := getCell_updateCol_other "DatapointName" "BeneficiaryId"
      normalizeStrCell (by decide) hr
    rw [he]
    exact hBf4 r0 hr0
  · obtain ⟨r0, hr0, he⟩ := getCell_updateCol_other "DatapointName" "Answer"
      normalizeStrCell (by decide) hr
    rw [he]
    exact hAf4 r0 hr0
  · obtain ⟨r0, hr0, he⟩ := getCell_updateCol_other "DatapointName" "Capture Date"
      normalizeStrCell (by decide) hr
    rw [he]
    exact hCDf4 r0 hr0
  · obtain ⟨i, hidx⟩ := colIdx_of_contains hDN
    obtain ⟨r0, hr0, he⟩ := getCell_updateCol_self hidx normalizeStrCell hwf4 hr
    rw [he]
    obtain ⟨s, hs⟩ := hstr4 r0 hr0
    rw [hs]
    exact normalizeStrCell_form s

/-- C4: every row in the Completeness Filter's output has all four critical
fields present — `BeneficiaryId` and `Answer` numeric, `Capture Date` a
datetime, `DatapointName` a string that is none of the null tokens (and in
particular not empty and not whitespace-only, those having been stripped
and replaced by missing before filtering). -/
theorem completeness_invariant (df out : DF) (hwf : df.wf = true)
    (hreq : ∀ c ∈ criticalCols, df.cols.contains c = true)
    (h : remove_missing_critical_data df = .ok out) :
    ∀ r ∈ out.rows,
      (getCell out.cols r "BeneficiaryId").isNum = true
      ∧ (getCell out.cols r "Answer").isNum = true
      ∧ (getCell out.cols r "Capture Date").isDate = true
      ∧ ∃ s, getCell out.cols r "DatapointName" = .str s
          ∧ nullTokens.contains s = false := by
  intro r hr
  unfold remove_missing_critical_data at h
  by_cases hempty : df.isEmptyDF = true
  · rw [if_pos hempty] at h
    cases h
    have hBc := hreq "BeneficiaryId" (by simp [criticalCols])
    have hcne : ¬ df.cols.isEmpty = true := by
      intro hc
      rw [List.isEmpty_iff.mp hc] at hBc
      cases hBc
    have hrows : df.rows = [] := by
      unfold DF.isEmptyDF at hempty
      rcases Bool.or_eq_true _ _ ▸ hempty with h1 | h1
      · exact List.isEmpty_iff.mp h1
      · exact absurd h1 hcne
    rw [hrows] at hr
    cases hr
  · rw [if_neg hempty] at h
    have hmiss : (criticalCols.filter (fun c => ¬ df.cols.contains c)).isEmpty = true := by
      rw [List.isEmpty_iff, List.filter_eq_nil_iff]
      intro c hc
      have hcc : c ∈ df.cols := by simpa using hreq c hc
      simp [hcc]
    rw [if_neg (not_not_intro hmiss)] at h
    cases h
    obtain ⟨hrp, hkeep⟩ := List.mem_filter.mp hr
    have hforms := criticalNormalize_forms (rowsWf_of_wf hwf)
      (hreq "BeneficiaryId" (by simp [criticalCols]))
      (hreq "Answer" (by simp [criticalCols]))
      (hreq "Capture Date" (by simp [criticalCols]))
      (hreq "DatapointName" (by simp [criticalCols])) r hrp
    simp only [Bool.and_eq_true, Bool.not_eq_eq_eq_not, Bool.not_true] at hkeep
    obtain ⟨⟨⟨hkB, hkA⟩, hkCD⟩, hkDN⟩ := hkeep
    obtain ⟨hfB, hfA, hfCD, hfDN⟩ := hforms
    refine ⟨?_, ?_, ?_, ?_⟩
    · simpa [hkB] using hfB
    · simpa [hkA] using hfA
    · simpa [hkCD] using hfCD
    · rcases hfDN with hnull | ⟨s, hs, hns⟩
      · rw [hnull] at hkDN
        cases hkDN
      · exact ⟨s, hs, hns⟩

/-- C4 (witness): the completeness invariant on a concrete table whose
missingness is encoded as the literal tokens "None"/"null"/"NULL" and
whitespace-only strings; exactly the one fully-present row survives. -/
theorem completeness_invariant_witness :
    dfTokens.wf = true
    ∧ (∀ c ∈ criticalCols, dfTokens.cols.contains c = true)
    ∧ remove_missing_critical_data dfTokens = .ok dfTokensOut
    ∧ ∀ r ∈ dfTokensOut.rows,
      (getCell dfTokensOut.cols r "BeneficiaryId").isNum = true
      ∧ (getCell dfTokensOut.cols r "Answer").isNum = true
      ∧ (getCell dfTokensOut.cols r "Capture Date").isDate = true
      ∧ ∃ s, getCell dfTokensOut.cols r "DatapointName" = .str s
          ∧ nullTokens.contains s = false :=
  ⟨by decide, by decide, by decide,
    completeness_invariant dfTokens dfTokensOut (by decide) (by decide) (by decide)⟩

/-! ### Duplicate Resolver lemmas (C7) -/

theorem dropDuplicates_subset {κ : Type} [DecidableEq κ] (key : List Cell → κ) :
    ∀ (l : List (List Cell)) (seen : List κ) (x : List Cell),
      x ∈ dropDuplicates key seen l → x ∈ l := by
  intro l
  induction l with
  | nil => intro seen x hx; cases hx
  | cons r rs ih =>
    intro seen x hx
    unfold dropDuplicates at hx
    by_cases hk : key r ∈ seen
    · rw [if_pos hk] at hx
      exact List.mem_cons_of_mem _ (ih seen x hx)
    · rw [if_neg hk] at hx
      rcases List.mem_cons.mp hx with rfl | hx2
      · exact List.mem_cons_self _ _
      · exact List.mem_cons_of_mem _ (ih _ x hx2)

theorem dropDuplicates_cons_mem {κ : Type} [DecidableEq κ] {key : List Cell → κ}
    {seen : List κ} {r : List Cell} (rs : List (List Cell)) (hk : key r ∈ seen) :
    dropDuplicates key seen (r :: rs) = dropDuplicates key seen rs := by
  simp only [dropDuplicates]
  rw [if_pos hk]

theorem dropDuplicates_cons_not_mem {κ : Type} [DecidableEq κ] {key : List Cell → κ}
    {seen : List κ} {r : List Cell} (rs : List (List Cell)) (hk : key r ∉ seen) :
    dropDuplicates key seen (r :: rs)
      = r :: dropDuplicates key (key r :: seen) rs := by
  simp only [dropDuplicates]
  rw [if_neg hk]

theorem dropDuplicates_idem {κ : Type} [DecidableEq κ] (key : List Cell → κ) :
    ∀ (l : List (List Cell)) (seen : List κ),
      dropDuplicates key seen (dropDuplicates key seen l)
        = dropDuplicates key seen l := by
  intro l
  induction l with
  | nil => intro seen; rfl
  | cons r rs ih =>
    intro seen
    by_cases hk : key r ∈ seen
    · rw [dropDuplicates_cons_mem rs hk]
      exact ih seen
    · rw [dropDuplicates_cons_not_mem rs hk,
        dropDuplicates_cons_not_mem (dropDuplicates key (key r :: seen) rs) hk,
        ih (key r :: seen)]

theorem rowsWf_subset {cols : List String} {rows rows2 : List (List Cell)}
    (hsub : ∀ r ∈ rows2, r ∈ rows) (hwf : rowsWf cols rows) : rowsWf cols rows2 :=
  fun r hr => hwf r (hsub r hr)

/-- The cell shapes `dedupCoerce` establishes on the five key columns. -/
theorem dedupCoerce_forms {cols : List String} {rows : List (List Cell)}
    (hwf : rowsWf cols rows)
    (hB : cols.contains "BeneficiaryId" = true)
    (hA : cols.contains "Answer" = true)
    (hCD : cols.contains "Capture Date" = true)
    (hDN : cols.contains "DatapointName" = true)
    (hS : cols.contains "Site" = true) :
    ∀ r ∈ dedupCoerce cols rows,
      ((getCell cols r "BeneficiaryId").isNum
        || (getCell cols r "BeneficiaryId").isNull) = true
      ∧ ((getCell cols r "Answer").isNum || (getCell cols r "Answer").isNull) = true
      ∧ ((getCell cols r "Capture Date").isDate
        || (getCell cols r "Capture Date").isNull) = true
      ∧ (∃ s, getCell cols r "DatapointName" = .str s)
      ∧ (∃ s, getCell cols r "Site" = .str s) := by
  unfold dedupCoerce
  set R1 := updateCol cols "BeneficiaryId" cellToNumeric rows with hR1
  set R2 := updateCol cols "Answer" cellToNumeric R1 with hR2
  set R3 := if colDtype cols R2 "Capture Date" ≠ Dtype.datetime then
      updateCol cols "Capture Date" cellToDatetime R2
    else R2 with hR3
  set R4 := updateCol cols "DatapointName" cellToStr R3 with hR4
  have hwf1 : rowsWf cols R1 := by rw [hR1]; exact rowsWf_updateCol _ _ hwf
  have hwf2 : rowsWf cols R2 := by rw [hR2]; exact rowsWf_updateCol _ _ hwf1
  have hwf3 : rowsWf cols R3 := by
    rw [hR3]
    split
    · exact rowsWf_updateCol _ _ hwf2
    · exact hwf2
  have hwf4 : rowsWf cols R4 := by rw [hR4]; exact rowsWf_updateCol _ _ hwf3
  have hBf1 : ∀ r ∈ R1,
      ((getCell cols r "BeneficiaryId").isNum
        || (getCell cols r "BeneficiaryId").isNull) = true := by
    rw [hR1]
    exact forms_updateCol_self (P := fun x => (x.isNum || x.isNull) = true)
      hB hwf cellToNumeric cellToNumeric_form
  have hBf2 : ∀ r ∈ R2,
      ((getCell cols r "BeneficiaryId").isNum
        || (getCell cols r "BeneficiaryId").isNull) = true := by
    rw [hR2]
    exact forms_updateCol_other "Answer" "BeneficiaryId"
      (P := fun x => (x.isNum || x.isNull) = true) (by decide) hBf1 _
  have hAf2 : ∀ r ∈ R2,
      ((getCell cols r "Answer").isNum || (getCell cols r "Answer").isNull) = true := by
    rw [hR2]
    exact forms_updateCol_self (P := fun x => (x.isNum || x.isNull) = true)
      hA hwf1 cellToNumeric cellToNumeric_form
  have hBf3 : ∀ r ∈ R3,
      ((getCell cols r "BeneficiaryId").isNum
        || (getCell cols r "BeneficiaryId").isNull) = true := by
    rw [hR3]
    split
    · exact forms_updateCol_other "Capture Date" "BeneficiaryId"
        (P := fun x => (x.isNum || x.isNull) = true) (by decide) hBf2 _
    · exact hBf2
  have hAf3 : ∀ r ∈ R3,
      ((getCell cols r "Answer").isNum || (getCell cols r "Answer").isNull) = true := by
    rw [hR3]
    split
    · exact forms_updateCol_other "Capture Date" "Answer"
        (P := fun x => (x.isNum || x.isNull) = true) (by decide) hAf2 _
    · exact hAf2
  have hCDf3 : ∀ r ∈ R3,
      ((getCell cols r "Capture Date").isDate
        || (getCell cols r "Capture Date").isNull) = true := by
    rw [hR3]
    split
    · exact forms_updateCol_self (P := fun x => (x.isDate || x.isNull) = true)
        hCD hwf2 cellToDatetime cellToDatetime_form
    · next hdt => exact colDtype_datetime_forms (not_not.mp hdt)
  have hBf4 : ∀ r ∈ R4,
      ((getCell cols r "BeneficiaryId").isNum
        || (getCell cols r "BeneficiaryId").isNull) = true := by
    rw [hR4]
    exact forms_updateCol_other "DatapointName" "BeneficiaryId"
      (P := fun x => (x.isNum || x.isNull) = true) (by decide) hBf3 _
  have hAf4 : ∀ r ∈ R4,
      ((getCell cols r "Answer").isNum || (getCell cols r "Answer").isNull) = true := by
    rw [hR4]
    exact forms_updateCol_other "DatapointName" "Answer"
      (P := fun x => (x.isNum || x.isNull) = true) (by decide) hAf3 _
  have hCDf4 : ∀ r ∈ R4,
      ((getCell cols r "Capture Date").isDate
        || (getCell cols r "Capture Date").isNull) = true := by
    rw [hR4]
    exact forms_updateCol_other "DatapointName" "Capture Date"
      (P := fun x => (x.isDate || x.isNull) = true) (by decide) hCDf3 _
  have hDNf4 : ∀ r ∈ R4, ∃ s, getCell cols r "DatapointName" = .str s := by
    rw [hR4]
    exact forms_updateCol_self (P := fun x => ∃ s, x = Cell.str s)
      hDN hwf3 cellToStr cellToStr_isStr
  intro r hr
  refine ⟨?_, ?_, ?_, ?_, ?_⟩
  · obtain ⟨r0, hr0, he⟩ := getCell_updateCol_other "Site" "BeneficiaryId"
      cellToStr (by decide) hr
    rw [he]
    exact hBf4 r0 hr0
  · obtain ⟨r0, hr0, he⟩ := getCell_updateCol_other "Site" "Answer"
      cellToStr (by decide) hr
    rw [he]
    exact hAf4 r0 hr0
  · obtain ⟨r0, hr0, he⟩ := getCell_updateCol_other "Site" "Capture Date"
      cellToStr (by decide) hr
    rw [he]
    exact hCDf4 r0 hr0
  · obtain ⟨r0, hr0, he⟩ := getCell_updateCol_other "Site" "DatapointName"
      cellToStr (by decide) hr
    rw [he]
    exact hDNf4 r0 hr0
  · obtain ⟨i, hidx⟩ := colIdx_of_contains hS
    obtain ⟨r0, hr0, he⟩ := getCell_updateCol_self hidx cellToStr hwf4 hr
    rw [he]
    exact cellToStr_isStr _

theorem rowsWf_dedupCoerce {cols : List String} {rows : List (List Cell)}
    (hwf : rowsWf cols rows) : rowsWf cols (dedupCoerce cols rows) := by
  unfold dedupCoerce
  exact rowsWf_updateCol _ _ (rowsWf_updateCol _ _ (by
    split
    · exact rowsWf_updateCol _ _
        (rowsWf_updateCol _ _ (rowsWf_updateCol _ _ hwf))
    · exact rowsWf_updateCol _ _ (rowsWf_updateCol _ _ hwf)))

/-- `dedupCoerce` is the identity on rows whose five key columns already
have the coerced shapes. -/
theorem dedupCoerce_fixes {cols : List String} {rows : List (List Cell)}
    (hwf : rowsWf cols rows)
    (hB : ∀ r ∈ rows, ((getCell cols r "BeneficiaryId").isNum
      || (getCell cols r "BeneficiaryId").isNull) = true)
    (hA : ∀ r ∈ rows, ((getCell cols r "Answer").isNum
      || (getCell cols r "Answer").isNull) = true)
    (hCD : ∀ r ∈ rows, ((getCell cols r "Capture Date").isDate
      || (getCell cols r "Capture Date").isNull) = true)
    (hDN : ∀ r ∈ rows, ∃ s, getCell cols r "DatapointName" = .str s)
    (hS : ∀ r ∈ rows, ∃ s, getCell cols r "Site" = .str s) :
    dedupCoerce cols rows = rows := by
  unfold dedupCoerce
  simp only []
  rw [updateCol_eq_self hwf (fun r hr => cellToNumeric_of_numForm (hB r hr))]
  rw [updateCol_eq_self hwf (fun r hr => cellToNumeric_of_numForm (hA r hr))]
  have hr3 : (if colDtype cols rows "Capture Date" ≠ Dtype.datetime then
      updateCol cols "Capture Date" cellToDatetime rows
    else rows) = rows := by
    split
    · exact updateCol_eq_self hwf (fun r hr => cellToDatetime_of_dateForm (hCD r hr))
    · rfl
  rw [hr3]
  rw [updateCol_eq_self hwf (fun r hr => by
    obtain ⟨s, hs⟩ := hDN r hr
    rw [hs]
    rfl)]
  rw [updateCol_eq_self hwf (fun r hr => by
    obtain ⟨s, hs⟩ := hS r hr
    rw [hs]
    rfl)]

/-- C7: the Duplicate Resolver is idempotent — applied to its own output it
returns that output unchanged. -/
theorem remove_duplicates_idempotent (df out : DF) (hwf : df.wf = true)
    (h : remove_duplicates df = .ok out) :
    remove_duplicates out = .ok out := by
  unfold remove_duplicates at h ⊢
  by_cases hempty : df.isEmptyDF = true
  · rw [if_pos hempty] at h
    cases h
    rw [if_pos hempty]
  · rw [if_neg hempty] at h
    by_cases hmiss : (dedupKeyCols.filter (fun c => ¬ df.cols.contains c)).isEmpty = true
    · rw [if_neg (not_not_intro hmiss)] at h
      cases h
      by_cases hout : (DF.mk df.cols
          (dropDuplicates (dedupKey df.cols) []
            (dedupCoerce df.cols df.rows))).isEmptyDF = true
      · rw [if_pos hout]
      · rw [if_neg hout]
        rw [if_neg (not_not_intro hmiss)]
        have hcols := List.isEmpty_iff.mp hmiss
        rw [List.filter_eq_nil_iff] at hcols
        have hcB : df.cols.contains "BeneficiaryId" = true := by
          have := hcols "BeneficiaryId" (by simp [dedupKeyCols])
          simpa using this
        have hcDN : df.cols.contains "DatapointName" = true := by
          have := hcols "DatapointName" (by simp [dedupKeyCols])
          simpa using this
        have hcA : df.cols.contains "Answer" = true := by
          have := hcols "Answer" (by simp [dedupKeyCols])
          simpa using this
        have hcCD : df.cols.contains "Capture Date" = true := by
          have := hcols "Capture Date" (by simp [dedupKeyCols])
          simpa using this
        have hcS : df.cols.contains "Site" = true := by
          have := hcols "Site" (by simp [dedupKeyCols])
          simpa using this
        have hwf0 := rowsWf_of_wf hwf
        have hforms := dedupCoerce_forms hwf0 hcB hcA hcCD hcDN hcS
        have hsub : ∀ r ∈ dropDuplicates (dedupKey df.cols) []
            (dedupCoerce df.cols df.rows), r ∈ dedupCoerce df.cols df.rows :=
          fun r hr => dropDuplicates_subset _ _ _ r hr
        have hwfd : rowsWf df.cols (dropDuplicates (dedupKey df.cols) []
            (dedupCoerce df.cols df.rows)) :=
          rowsWf_subset hsub (rowsWf_dedupCoerce hwf0)
        have hfix : dedupCoerce df.cols (dropDuplicates (dedupKey df.cols) []
            (dedupCoerce df.cols df.rows)) = dropDuplicates (dedupKey df.cols) []
            (dedupCoerce df.cols df.rows) := by
          apply dedupCoerce_fixes hwfd
          · exact fun r hr => (hforms r (hsub r hr)).1
          · exact fun r hr => (hforms r (hsub r hr)).2.1
          · exact fun r hr => (hforms r (hsub r hr)).2.2.1
          · exact fun r hr => (hforms r (hsub r hr)).2.2.2.1
          · exact fun r hr => (hforms r (hsub r hr)).2.2.2.2
        simp only []
        rw [hfix]
        rw [dropDuplicates_idem]
    · rw [if_pos (by simpa using hmiss)] at h
      cases h

/-- C7 (witness): idempotence on a concrete table with one exact duplicate
pair. -/
theorem remove_duplicates_idempotent_witness :
    dfDup.wf = true
    ∧ remove_duplicates dfDup = .ok dfDupOut
    ∧ remove_duplicates dfDupOut = .ok dfDupOut :=
  ⟨by decide, by decide,
    remove_duplicates_idempotent dfDup dfDupOut (by decide) (by decide)⟩

/-! ### Orchestrator lemmas (C1) -/

theorem cols_remove_duplicates {df out : DF} (h : remove_duplicates df = .ok out) :
    out.cols = df.cols := by
  unfold remove_duplicates at h
  split at h
  · cases h
    rfl
  · simp only [] at h
    split at h
    · cases h
    · cases h
      rfl

theorem cols_remove_extreme_values {df out : DF}
    (h : remove_extreme_values df = .ok out) : out.cols = df.cols := by
  unfold remove_extreme_values at h
  split at h
  · cases h
    rfl
  · simp only [] at h
    split at h
    · cases h
    · cases h
      rfl

theorem cols_remove_missing_critical_data {df out : DF}
    (h : remove_missing_critical_data df = .ok out) : out.cols = df.cols := by
  unfold remove_missing_critical_data at h
  split at h
  · cases h
    rfl
  · simp only [] at h
    split at h
    · cases h
    · cases h
      rfl

theorem cols_convertDateColumn (df : DF) (c : String) :
    (convertDateColumn df c).cols = df.cols := by
  unfold convertDateColumn
  simp only []
  split
  · rfl
  · split <;> rfl

theorem cols_convertInt64Column (df : DF) (c : String) :
    (convertInt64Column df c).cols = df.cols := by
  unfold convertInt64Column
  simp only []
  split <;> rfl

theorem cols_applyIfPresent (step : DF → String → DF)
    (h : ∀ d c, (step d c).cols = d.cols) :
    ∀ (cs : List String) (df : DF), (applyIfPresent step df cs).cols = df.cols := by
  intro cs
  induction cs with
  | nil => intro df; rfl
  | cons c cs ih =>
    intro df
    unfold applyIfPresent
    rw [List.foldl_cons]
    have h2 := ih (if df.cols.contains c then step df c else df)
    unfold applyIfPresent at h2
    rw [h2]
    split
    · exact h df c
    · rfl

theorem cols_fix_data_types {df out : DF} (h : fix_data_types df = .ok out) :
    out.cols = df.cols := by
  unfold fix_data_types at h
  split at h
  · cases h
    rfl
  · have h2 := Except.ok.inj h
    subst h2
    rw [cols_applyIfPresent convertNumericColumn (fun d c => rfl),
      cols_applyIfPresent convertBinaryColumn (fun d c => rfl),
      cols_applyIfPresent convertInt64Column cols_convertInt64Column,
      cols_applyIfPresent convertNumericColumn (fun d c => rfl),
      cols_applyIfPresent convertDateColumn cols_convertDateColumn]

/-- C1 (amended): both orchestrator entry points run exactly four cleaning
stages, in the fixed order duplicate removal → extreme-value removal →
type normalization → missing-critical-data removal (type normalization
third, not first), never invoke the Longitudinal Field Deriver, and
persist a table with exactly the input's columns — in particular no
derived longitudinal fields are added. -/
theorem pipeline_order_and_columns (df : DF) :
    runPipeline df = (remove_duplicates df).bind (fun d1 =>
      (remove_extreme_values d1).bind (fun d2 =>
        (fix_data_types d2).bind (fun d3 =>
          remove_missing_critical_data d3)))
    ∧ ∀ out, runPipeline df = .ok out → out.cols = df.cols := by
  refine ⟨rfl, ?_⟩
  intro out h
  unfold runPipeline at h
  cases h1 : remove_duplicates df with
  | error e =>
    rw [h1] at h
    cases h
  | ok d1 =>
    rw [h1] at h
    simp only [Except.bind] at h
    cases h2 : remove_extreme_values d1 with
    | error e =>
      rw [h2] at h
      cases h
    | ok d2 =>
      rw [h2] at h
      simp only [] at h
      cases h3 : fix_data_types d2 with
      | error e =>
        rw [h3] at h
        cases h
      | ok d3 =>
        rw [h3] at h
        simp only [] at h
        rw [cols_remove_missing_critical_data h, cols_fix_data_types h3,
          cols_remove_extreme_values h2, cols_remove_duplicates h1]

/-- C1 (witness): the amended statement on the spec's end-to-end scenario
table. -/
theorem pipeline_order_and_columns_witness :
    (runPipeline dfScenario = (remove_duplicates dfScenario).bind (fun d1 =>
      (remove_extreme_values d1).bind (fun d2 =>
        (fix_data_types d2).bind (fun d3 =>
          remove_missing_critical_data d3)))
    ∧ ∀ out, runPipeline dfScenario = .ok out → out.cols = dfScenario.cols)
    ∧ runPipeline dfScenario = .ok dfScenarioOut :=
  ⟨pipeline_order_and_columns dfScenario, by decide⟩

/-! ### Longitudinal Field Deriver lemmas (C5, C6) -/

instance : Std.Antisymm (fun x1 x2 : ℚ => x1 ≤ x2) :=
  ⟨fun h1 h2 => le_antisymm h1 h2⟩

theorem minQ_eq_some_iff {xs : List ℚ} {a : ℚ} :
    xs.min? = some a ↔ a ∈ xs ∧ ∀ b ∈ xs, a ≤ b := by
  apply List.min?_eq_some_iff
  · exact fun _ => le_refl _
  · exact fun a b => min_choice a b
  · exact fun a b c => le_min_iff

theorem maxQ_eq_some_iff {xs : List ℚ} {a : ℚ} :
    xs.max? = some a ↔ a ∈ xs ∧ ∀ b ∈ xs, b ≤ a := by
  apply List.max?_eq_some_iff
  · exact fun _ => le_refl _
  · exact fun a b => max_choice a b
  · exact fun a b c => max_le_iff

theorem minQ_of_mem {xs : List ℚ} {a : ℚ} (h : a ∈ xs) :
    ∃ m, xs.min? = some m := by
  cases xs with
  | nil => cases h
  | cons x l => exact ⟨_, List.min?_cons⟩

theorem maxQ_of_mem {xs : List ℚ} {a : ℚ} (h : a ∈ xs) :
    ∃ m, xs.max? = some m := by
  cases xs with
  | nil => cases h
  | cons x l => exact ⟨_, List.max?_cons⟩

theorem mrowLe_total (a b : MRow) : (mrowLe a b || mrowLe b a) = true := by
  unfold mrowLe
  rcases lt_trichotomy a.child b.child with h | h | h
  · simp [h]
  · simp [h, le_total a.cdate b.cdate]
  · simp [h]

theorem mrowLe_trans (a b c : MRow) (h1 : mrowLe a b = true)
    (h2 : mrowLe b c = true) : mrowLe a c = true := by
  unfold mrowLe at *
  simp only [Bool.or_eq_true, Bool.and_eq_true, decide_eq_true_eq, beq_iff_eq] at *
  rcases h1 with h1 | ⟨h1e, h1d⟩ <;> rcases h2 with h2 | ⟨h2e, h2d⟩
  · exact Or.inl (lt_trans h1 h2)
  · exact Or.inl (h2e ▸ h1)
  · exact Or.inl (h1e ▸ h2)
  · exact Or.inr ⟨h1e.trans h2e, le_trans h1d h2d⟩

theorem mrowLe_cdate {a b : MRow} (h : mrowLe a b = true)
    (hc : a.child = b.child) : a.cdate ≤ b.cdate := by
  unfold mrowLe at h
  simp only [Bool.or_eq_true, Bool.and_eq_true, decide_eq_true_eq, beq_iff_eq] at h
  rcases h with h | ⟨_, h⟩
  · exact absurd h (by rw [hc]; exact lt_irrefl _)
  · exact h

theorem mem_insertSorted {α : Type} (le : α → α → Bool) (x a : α) :
    ∀ l, a ∈ insertSorted le x l ↔ a = x ∨ a ∈ l := by
  intro l
  induction l with
  | nil => simp [insertSorted]
  | cons y ys ih =>
    unfold insertSorted
    by_cases hle : le x y = true
    · rw [if_pos hle]
      simp
    · rw [if_neg hle]
      simp only [List.mem_cons, ih]
      tauto

theorem pairwise_insertSorted {α : Type} (le : α → α → Bool)
    (htot : ∀ a b, (le a b || le b a) = true)
    (htrans : ∀ a b c, le a b = true → le b c = true → le a c = true)
    (x : α) :
    ∀ l, l.Pairwise (fun a b => le a b = true) →
      (insertSorted le x l).Pairwise (fun a b => le a b = true) := by
  intro l
  induction l with
  | nil => intro _; simp [insertSorted]
  | cons y ys ih =>
    intro hp
    rw [List.pairwise_cons] at hp
    obtain ⟨hy, hys⟩ := hp
    unfold insertSorted
    by_cases hle : le x y = true
    · rw [if_pos hle]
      rw [List.pairwise_cons]
      refine ⟨?_, List.pairwise_cons.mpr ⟨hy, hys⟩⟩
      intro b hb
      rcases List.mem_cons.mp hb with rfl | hb2
      · exact hle
      · exact htrans x y b hle (hy b hb2)
    · rw [if_neg hle]
      rw [List.pairwise_cons]
      constructor
      · intro b hb
        rcases (mem_insertSorted le x b ys).mp hb with heq | hb2
        · subst heq
          rcases Bool.or_eq_true _ _ ▸ htot b y with h | h
          · exact absurd h hle
          · exact h
        · exact hy b hb2
      · exact ih hys

theorem sortRows_pairwise {α : Type} (le : α → α → Bool)
    (htot : ∀ a b, (le a b || le b a) = true)
    (htrans : ∀ a b c, le a b = true → le b c = true → le a c = true) :
    ∀ l : List α, (sortRows le l).Pairwise (fun a b => le a b = true) := by
  intro l
  induction l with
  | nil => exact List.Pairwise.nil
  | cons x xs ih => exact pairwise_insertSorted le htot htrans x _ ih

theorem mem_sortRows {α : Type} (le : α → α → Bool) (a : α) :
    ∀ l, a ∈ sortRows le l ↔ a ∈ l := by
  intro l
  induction l with
  | nil => simp [sortRows]
  | cons x xs ih =>
    unfold sortRows
    rw [mem_insertSorted, ih]
    simp

theorem deriveRow_child (all seen : List MRow) (r : MRow) :
    (deriveRow all seen r).child = r.child := rfl

theorem deriveRow_cdate (all seen : List MRow) (r : MRow) :
    (deriveRow all seen r).cdate = r.cdate := rfl

theorem deriveRow_first (all seen : List MRow) (r : MRow) :
    (deriveRow all seen r).is_first_measurement
      = (seen.filter (fun s => s.child == r.child)).isEmpty := rfl

theorem deriveRow_prev (all seen : List MRow) (r : MRow) :
    (deriveRow all seen r).days_since_previous_measurement
      = match (seen.filter (fun s => s.child == r.child)).getLast? with
        | some p => some (tdDays (r.cdate - p.cdate))
        | none => none := rfl

theorem deriveRow_dsf (all seen : List MRow) (r : MRow) :
    (deriveRow all seen r).days_since_first_measurement
      = match (groupDates all r.child).min? with
        | some m => tdDays (r.cdate - m)
        | none => 0 := rfl

theorem deriveRow_latest (all seen : List MRow) (r : MRow) :
    (deriveRow all seen r).is_latest_measurement
      = match (groupDates all r.child).max? with
        | some m => r.cdate == m
        | none => false := rfl

theorem mem_groupDates {l : List MRow} {c : ℤ} {t : ℚ} :
    t ∈ groupDates l c ↔ ∃ r, r ∈ l ∧ r.child = c ∧ r.cdate = t := by
  unfold groupDates
  constructor
  · intro h
    obtain ⟨r, hr, he⟩ := List.mem_map.mp h
    obtain ⟨hl, hb⟩ := List.mem_filter.mp hr
    exact ⟨r, hl, by simpa using hb, he⟩
  · rintro ⟨r, hl, hcc, he⟩
    exact List.mem_map.mpr ⟨r, List.mem_filter.mpr ⟨hl, by simpa using hcc⟩, he⟩

theorem filter_isEmpty_eq_not_any {α : Type} (q : α → Bool) (l : List α) :
    (l.filter q).isEmpty = !l.any q := by
  induction l with
  | nil => rfl
  | cons a t ih =>
    by_cases hq : q a = true <;> simp [List.filter_cons, hq, ih]

/-- The (child, capture date) columns of the deriver's output are those of
the remaining input rows, in order. -/
theorem deriveAux_groupDates (all : List MRow) (c : ℤ) :
    ∀ (rest seen : List MRow),
      ((deriveAux all seen rest).filter (fun d => d.child == c)).map
          (fun d => d.cdate)
        = groupDates rest c := by
  intro rest
  induction rest with
  | nil => intro seen; rfl
  | cons r rest ih =>
    intro seen
    simp only [deriveAux]
    unfold groupDates
    rw [List.filter_cons, List.filter_cons]
    by_cases hc : (r.child == c) = true
    · simp only [deriveRow_child, hc, if_pos, List.map_cons, deriveRow_cdate]
      have h2 := ih (seen ++ [r])
      unfold groupDates at h2
      rw [h2]
    · simp only [deriveRow_child, hc, if_neg, Bool.false_eq_true, not_false_iff]
      have h2 := ih (seen ++ [r])
      unfold groupDates at h2
      rw [h2]

/-- Every output row of `deriveAux` is `deriveRow` of some remaining input
row, with the accumulated prefix as its "earlier rows". -/
theorem mem_deriveAux (all : List MRow) :
    ∀ (rest seen : List MRow) (d : DRow), d ∈ deriveAux all seen rest →
      ∃ pre r, r ∈ rest ∧ d = deriveRow all (seen ++ pre) r := by
  intro rest
  induction rest with
  | nil => intro seen d hd; cases hd
  | cons r rest ih =>
    intro seen d hd
    rcases List.mem_cons.mp hd with heq | hd2
    · exact ⟨[], r, List.mem_cons_self _ _, by rw [List.append_nil]; exact heq⟩
    · obtain ⟨pre, r2, hr2, he⟩ := ih (seen ++ [r]) d hd2
      refine ⟨r :: pre, r2, List.mem_cons_of_mem _ hr2, ?_⟩
      rw [he, List.append_assoc, List.singleton_append]

/-- Per child, the number of output rows flagged first is one when the
child occurs in the remaining rows but not yet in the prefix, else zero. -/
theorem deriveAux_countFirst (all : List MRow) (c : ℤ) :
    ∀ (rest seen : List MRow),
      (deriveAux all seen rest).countP
          (fun d => d.child == c && d.is_first_measurement)
        = if rest.any (fun r => r.child == c)
              && !(seen.any (fun s => s.child == c))
          then 1 else 0 := by
  intro rest
  induction rest with
  | nil => intro seen; simp [deriveAux]
  | cons r rest ih =>
    intro seen
    simp only [deriveAux, List.countP_cons]
    rw [ih (seen ++ [r])]
    have hp : ((deriveRow all seen r).child == c
          && (deriveRow all seen r).is_first_measurement)
        = ((r.child == c) && !(seen.any (fun s => s.child == r.child))) := by
      rw [deriveRow_child, deriveRow_first, filter_isEmpty_eq_not_any]
    rw [hp, List.any_append]
    by_cases hrc : (r.child == c) = true
    · have hcc : r.child = c := by simpa using hrc
      by_cases hsc : (seen.any (fun s => s.child == c)) = true
      · simp [hrc, hsc, hcc, List.any_cons]
      · simp [hrc, hsc, hcc, List.any_cons]
    · by_cases hsc : (seen.any (fun s => s.child == c)) = true
      · simp [hrc, hsc, List.any_cons]
      · simp [hrc, hsc, List.any_cons]

/-- The first flagged row of a child is chronologically minimal in its
group, has a zero first-offset, and no previous-measurement interval. -/
theorem deriveAux_first_props (all : List MRow) (c : ℤ) :
    ∀ (rest seen : List MRow), all = seen ++ rest →
      all.Pairwise (fun a b => mrowLe a b = true) →
      ∀ d ∈ deriveAux all seen rest, d.child = c →
        d.is_first_measurement = true →
        d.days_since_first_measurement = 0
        ∧ d.days_since_previous_measurement = none
        ∧ ∀ t ∈ groupDates all c, d.cdate ≤ t := by
  intro rest
  induction rest with
  | nil => intro seen _ _ d hd; cases hd
  | cons r rest ih =>
    intro seen heq hpw d hd hdc hdf
    rcases List.mem_cons.mp hd with heqd | hd2
    · subst heqd
      rw [deriveRow_child] at hdc
      rw [deriveRow_first] at hdf
      have hfil : seen.filter (fun s => s.child == r.child) = [] :=
        List.isEmpty_iff.mp hdf
      have hnoseen : ∀ x ∈ seen, x.child ≠ r.child := by
        intro x hx hxc
        have hm : x ∈ seen.filter (fun s => s.child == r.child) :=
          List.mem_filter.mpr ⟨hx, by simpa using hxc⟩
        rw [hfil] at hm
        cases hm
      have hrall : r ∈ all := by
        rw [heq]
        exact List.mem_append.mpr (Or.inr (List.mem_cons_self _ _))
      have hub : ∀ t ∈ groupDates all c, r.cdate ≤ t := by
        intro t ht
        obtain ⟨x, hxall, hxc, hxd⟩ := mem_groupDates.mp ht
        rw [heq] at hxall
        rcases List.mem_append.mp hxall with hxseen | hxcr
        · exact absurd (hxc.trans hdc.symm) (hnoseen x hxseen)
        · rcases List.mem_cons.mp hxcr with heqx | hxrest
          · rw [← hxd, heqx]
          · have hple : mrowLe r x = true := by
              rw [heq] at hpw
              have h2 := (List.pairwise_append.mp hpw).2.1
              exact (List.pairwise_cons.mp h2).1 x hxrest
            rw [← hxd]
            exact mrowLe_cdate hple (hdc.trans hxc.symm)
      refine ⟨?_, ?_, ?_⟩
      · rw [deriveRow_dsf]
        have hmem : r.cdate ∈ groupDates all r.child :=
          mem_groupDates.mpr ⟨r, hrall, rfl, rfl⟩
        obtain ⟨m, hm⟩ := minQ_of_mem hmem
        obtain ⟨hmmem, hmlb⟩ := minQ_eq_some_iff.mp hm
        have h1 : m ≤ r.cdate := hmlb _ hmem
        have h2 : r.cdate ≤ m := by
          apply hub
          rw [← hdc]
          exact hmmem
        rw [hm]
        rw [le_antisymm h1 h2]
        simp [tdDays]
      · rw [deriveRow_prev, hfil]
        rfl
      · intro t ht
        rw [deriveRow_cdate]
        exact hub t ht
    · refine ih (seen ++ [r]) ?_ hpw d hd2 hdc hdf
      rw [heq, List.append_assoc, List.singleton_append]

/-- Each output row's latest-flag compares its capture date against the
attained maximum of its child's group. -/
theorem deriveAux_latest_formula (all rest seen : List MRow)
    (hsub : ∀ x ∈ rest, x ∈ all) (d : DRow) (hd : d ∈ deriveAux all seen rest) :
    ∃ m, (groupDates all d.child).max? = some m
      ∧ d.is_latest_measurement = (d.cdate == m)
      ∧ d.cdate ∈ groupDates all d.child := by
  obtain ⟨pre, r, hr, heq⟩ := mem_deriveAux all rest seen d hd
  subst heq
  rw [deriveRow_child, deriveRow_cdate]
  have hmem : r.cdate ∈ groupDates all r.child :=
    mem_groupDates.mpr ⟨r, hsub r hr, rfl, rfl⟩
  obtain ⟨m, hm⟩ := maxQ_of_mem hmem
  refine ⟨m, hm, ?_, hmem⟩
  rw [deriveRow_latest, hm]

/-- C5: after the deriver runs, each child present in the output has
exactly one row flagged as first measurement; that row's capture date is
minimal among the child's rows, its days-since-first offset is zero and
its days-since-previous interval is missing. -/
theorem first_measurement_spec (rs : List MRow) (c : ℤ)
    (hc : c ∈ (create_derived_fields rs).map DRow.child) :
    (create_derived_fields rs).countP
        (fun d => d.child == c && d.is_first_measurement) = 1
    ∧ ∀ d ∈ create_derived_fields rs, d.child = c →
        d.is_first_measurement = true →
        d.days_since_first_measurement = 0
        ∧ d.days_since_previous_measurement = none
        ∧ ∀ e ∈ create_derived_fields rs, e.child = c → d.cdate ≤ e.cdate := by
  have hout : create_derived_fields rs
      = deriveAux (sortRows mrowLe rs) [] (sortRows mrowLe rs) := rfl
  rw [hout] at hc ⊢
  constructor
  · rw [deriveAux_countFirst]
    have hany : (sortRows mrowLe rs).any (fun r => r.child == c) = true := by
      obtain ⟨d, hd, hdc⟩ := List.mem_map.mp hc
      obtain ⟨pre, r, hr, heq⟩ := mem_deriveAux _ _ _ d hd
      subst heq
      rw [deriveRow_child] at hdc
      exact List.any_eq_true.mpr ⟨r, hr, by simpa using hdc⟩
    simp [hany]
  · intro d hd hdc hdf
    have hsorted : (sortRows mrowLe rs).Pairwise (fun a b => mrowLe a b = true) :=
      sortRows_pairwise mrowLe mrowLe_total mrowLe_trans rs
    obtain ⟨h1, h2, h3⟩ := deriveAux_first_props (sortRows mrowLe rs) c
      (sortRows mrowLe rs) [] rfl hsorted d hd hdc hdf
    refine ⟨h1, h2, ?_⟩
    intro e he hec
    apply h3
    rw [← deriveAux_groupDates (sortRows mrowLe rs) c (sortRows mrowLe rs) []]
    exact List.mem_map.mpr ⟨e, List.mem_filter.mpr ⟨he, by simpa using hec⟩, rfl⟩

/-- C6: after the deriver runs, a row is flagged latest exactly when its
capture date is maximal among its child's output rows; every child present
has at least one row flagged latest, and rows of the same child with equal
capture dates carry the same latest-flag (inclusive ties). -/
theorem latest_measurement_spec (rs : List MRow) :
    (∀ d ∈ create_derived_fields rs,
      (d.is_latest_measurement = true ↔
        ∀ e ∈ create_derived_fields rs, e.child = d.child → e.cdate ≤ d.cdate))
    ∧ (∀ c ∈ (create_derived_fields rs).map DRow.child,
        ∃ d ∈ create_derived_fields rs, d.child = c
          ∧ d.is_latest_measurement = true)
    ∧ (∀ d ∈ create_derived_fields rs, ∀ e ∈ create_derived_fields rs,
        d.child = e.child → d.cdate = e.cdate →
        d.is_latest_measurement = e.is_latest_measurement) := by
  have hout : create_derived_fields rs
      = deriveAux (sortRows mrowLe rs) [] (sortRows mrowLe rs) := rfl
  rw [hout]
  have hgd := fun c => deriveAux_groupDates (sortRows mrowLe rs) c
    (sortRows mrowLe rs) []
  have hform := fun d hd => deriveAux_latest_formula (sortRows mrowLe rs)
    (sortRows mrowLe rs) [] (fun x hx => hx) d hd
  refine ⟨?_, ?_, ?_⟩
  · intro d hd
    obtain ⟨m, hm, hlat, hmemd⟩ := hform d hd
    obtain ⟨hmmem, hmub⟩ := maxQ_eq_some_iff.mp hm
    constructor
    · intro hl e he hec
      have hdm : d.cdate = m := by
        rw [hlat] at hl
        simpa using hl
      have hemem : e.cdate ∈ groupDates (sortRows mrowLe rs) d.child := by
        rw [← hgd d.child]
        exact List.mem_map.mpr ⟨e, List.mem_filter.mpr ⟨he, by simpa using hec⟩, rfl⟩
      rw [hdm]
      exact hmub _ hemem
    · intro hub
      have hmm2 : m ∈ ((deriveAux (sortRows mrowLe rs) [] (sortRows mrowLe rs)).filter
          (fun e => e.child == d.child)).map (fun e => e.cdate) := by
        rw [hgd d.child]
        exact hmmem
      obtain ⟨e, hef, hecd⟩ := List.mem_map.mp hmm2
      obtain ⟨he, hec⟩ := List.mem_filter.mp hef
      have h1 : m ≤ d.cdate := by
        rw [← hecd]
        exact hub e he (by simpa using hec)
      have h2 : d.cdate ≤ m := hmub _ hmemd
      rw [hlat, le_antisymm h2 h1]
      simp
  · intro c hc
    obtain ⟨d0, hd0, hcd0⟩ := List.mem_map.mp hc
    obtain ⟨m, hm, _, _⟩ := hform d0 hd0
    obtain ⟨hmmem, _⟩ := maxQ_eq_some_iff.mp hm
    have hmm2 : m ∈ ((deriveAux (sortRows mrowLe rs) [] (sortRows mrowLe rs)).filter
        (fun e => e.child == d0.child)).map (fun e => e.cdate) := by
      rw [hgd d0.child]
      exact hmmem
    obtain ⟨e, hef, hecd⟩ := List.mem_map.mp hmm2
    obtain ⟨he, hec⟩ := List.mem_filter.mp hef
    have hech : e.child = d0.child := by simpa using hec
    obtain ⟨m2, hm2, hlat2, _⟩ := hform e he
    rw [hech] at hm2
    have hme : m2 = m := by
      rw [hm] at hm2
      exact (Option.some.inj hm2).symm
    refine ⟨e, he, hech.trans hcd0, ?_⟩
    rw [hlat2, hme, hecd]
    simp
  · intro d hd e he hce hdate
    obtain ⟨m, hm, hlat, _⟩ := hform d hd
    obtain ⟨m2, hm2, hlat2, _⟩ := hform e he
    rw [← hce] at hm2
    have hme : m2 = m := by
      rw [hm] at hm2
      exact (Option.some.inj hm2).symm
    rw [hlat, hlat2, hme, hdate]

/-- C5 (witness): the first-measurement property instantiated for child 42
of the sample rows (two tied latest dates, one earlier first). -/
theorem first_measurement_spec_witness :
    (42 : ℤ) ∈ (create_derived_fields mrowsSample).map DRow.child
    ∧ ((create_derived_fields mrowsSample).countP
          (fun d => d.child == (42 : ℤ) && d.is_first_measurement) = 1
      ∧ ∀ d ∈ create_derived_fields mrowsSample, d.child = 42 →
          d.is_first_measurement = true →
          d.days_since_first_measurement = 0
          ∧ d.days_since_previous_measurement = none
          ∧ ∀ e ∈ create_derived_fields mrowsSample, e.child = 42 →
              d.cdate ≤ e.cdate) :=
  ⟨by decide, first_measurement_spec mrowsSample 42 (by decide)⟩

/-- C6 (witness): child 42 of the sample rows has a row flagged latest. -/
theorem latest_measurement_spec_witness :
    ∃ d ∈ create_derived_fields mrowsSample, d.child = (42 : ℤ)
      ∧ d.is_latest_measurement = true :=
  (latest_measurement_spec mrowsSample).2.1 42 (by decide)
